import Mathlib

/-!
Verification of the Wa-Tor predator-prey simulation (Go, `main.go`).

The embedding mirrors the source faithfully.  Go stores `*Creature`
pointers in the grid and mutates the pointed-to records in place;
we model this with an explicit creature store (`Store`, a list of
creature records indexed by id) and grids holding `Option Nat`
creature ids, so that aliasing between the old and the new grid is
observable exactly as in the source.  `rand.Intn n` is modelled by
consuming a supply of numbers (`List Nat`), reduced modulo `n`;
theorems quantify over the supply.  A transition additionally records
an event log (eat / breed / skip / violation events); the log is pure
instrumentation: the grid and store produced are exactly those of the
source code.
-/

namespace WaTor

/-- Species of a creature (Go: `type Species int` with
`Empty`, `Fish`, `Shark`). -/
inductive Species where
  | empty : Species
  | fish : Species
  | shark : Species
deriving DecidableEq, Repr

/-- Go: `type Creature struct { Species Species; Age int; Energy int; LastBreed int }`. -/
structure Creature where
  species : Species
  Age : Int
  Energy : Int
  LastBreed : Int
deriving DecidableEq, Repr

/-- The record a dangling creature id dereferences to (never reached on
well-formed states; Go would dereference a valid pointer). -/
def defaultCreature : Creature := ⟨Species.empty, 0, 0, 0⟩

instance : Inhabited Creature := ⟨defaultCreature⟩

/-- The creature store: index = creature identity (Go: pointer). -/
abbrev Store := List Creature

/-- Go: `Grid [][]*Creature`, indexed `grid[x][y]`; a cell holds a
creature id or is empty (`nil`). -/
abbrev Grid := List (List (Option Nat))

/-- Go: `type World struct { Grid; Size; FishBreed; SharkBreed; Starve }`. -/
structure World where
  grid : Grid
  size : Nat
  fishBreed : Int
  sharkBreed : Int
  starve : Int

/-- Read a cell: `world.Grid[x][y]` (out-of-range reads give `none`;
the source only indexes in range). -/
def gget (g : Grid) (p : Nat × Nat) : Option Nat :=
  (g.getD p.1 []).getD p.2 none

/-- Write a cell: `world.Grid[x][y] = c`. -/
def gset (g : Grid) (p : Nat × Nat) (id : Nat) : Grid :=
  g.set p.1 ((g.getD p.1 []).set p.2 (some id))

/-- Dereference a creature id (Go: pointer dereference). -/
def storeGet (st : Store) (id : Nat) : Creature :=
  st.getD id defaultCreature

/-- The in-place mutation at the start of a creature's processing
(Go: `creature.Age++; creature.LastBreed++`). -/
def incr (c : Creature) : Creature :=
  { c with Age := c.Age + 1, LastBreed := c.LastBreed + 1 }

/-- Go: `shark.Energy--`. -/
def decEnergy (c : Creature) : Creature :=
  { c with Energy := c.Energy - 1 }

/-- Go: `shark.Energy = oldWorld.Starve`. -/
def setEnergy (c : Creature) (e : Int) : Creature :=
  { c with Energy := e }

/-- Go: `creature.LastBreed = 0` after reproduction. -/
def resetBreed (c : Creature) : Creature :=
  { c with LastBreed := 0 }

/-- Go: `func getAdjacentPositions(x, y, size int) [][2]int`, in source
order West, East, North, South.  Go's `%` on `int` is truncated
division, i.e. `Int.tmod`. -/
def getAdjacentPositions (x y size : Int) : List (Int × Int) :=
  [((x - 1 + size).tmod size, y),
   ((x + 1).tmod size, y),
   (x, (y - 1 + size).tmod size),
   (x, (y + 1).tmod size)]

/-- The same adjacency function on in-range `Nat` coordinates (the form
the transition engine uses); `adjacentN_coe` below proves it agrees
with `getAdjacentPositions` on the source's domain `0 ≤ x, y < size`. -/
def adjacentN (x y size : Nat) : List (Nat × Nat) :=
  [((x + size - 1) % size, y),
   ((x + 1) % size, y),
   (x, (y + size - 1) % size),
   (x, (y + 1) % size)]

/-- `rand.Intn n` modelled on a supply of numbers: consume the head,
reduce it modulo `n`; an exhausted supply draws `0`. -/
def draw (sup : List Nat) (n : Nat) : Nat × List Nat :=
  match sup with
  | [] => (0 % n, [])
  | k :: r => (k % n, r)

/-- Instrumentation events recorded while processing one chronon. -/
inductive Event where
  | eat : Nat → Nat → Nat × Nat → Nat × Nat → Event
  | breed : Nat → Nat → Nat × Nat → Nat × Nat → Event
  | skipCell : Nat × Nat → Nat → Event
  | violation : Nat × Nat → Event
deriving DecidableEq, Repr

/-- Record an invariant violation if a write is about to target an
occupied cell of the grid under construction (the source would silently
overwrite; we prove this never fires). -/
def violLog (g : Grid) (p : Nat × Nat) (log : List Event) : List Event :=
  if (gget g p).isNone then log else Event.violation p :: log

/-- State threaded through one chronon: the new grid under
construction, the (mutable, shared) creature store, the remaining
randomness supply, and the event log. -/
structure SimState where
  g : Grid
  store : Store
  sup : List Nat
  log : List Event

/-- The `emptyCells` candidate filter shared by `processFish` and the
no-prey branch of `processShark`: adjacent cells empty in both the old
grid and the new grid under construction. -/
def emptyCellsOf (old : World) (g : Grid) (x y : Nat) : List (Nat × Nat) :=
  (adjacentN x y old.size).filter
    (fun p => (gget old.grid p).isNone && (gget g p).isNone)

/-- The `fishCells` candidate filter of `processShark`: adjacent cells
holding a Fish in the old grid and still unclaimed in the new grid. -/
def fishCellsOf (old : World) (st : Store) (g : Grid) (x y : Nat) : List (Nat × Nat) :=
  (adjacentN x y old.size).filter (fun p =>
    match gget old.grid p with
    | some fid =>
        decide ((storeGet st fid).species = Species.fish) && (gget g p).isNone
    | none => false)

/-- Go: `func processFish(oldWorld, newWorld *World, x, y int, fish *Creature)`. -/
def processFish (old : World) (s : SimState) (x y : Nat) (fishId : Nat) : SimState :=
  let emptyCells := emptyCellsOf old s.g x y
  if emptyCells.length = 0 then
    let log := violLog s.g (x, y) s.log
    { s with g := gset s.g (x, y) fishId, log := log }
  else
    let d := draw s.sup emptyCells.length
    let newPos := emptyCells.getD d.1 (x, y)
    let fish := storeGet s.store fishId
    if fish.LastBreed ≥ old.fishBreed then
      let childId := s.store.length
      let store1 := s.store ++ [⟨Species.fish, 0, 0, 0⟩]
      let log1 := violLog s.g (x, y) s.log
      let g1 := gset s.g (x, y) childId
      let log2 := violLog g1 newPos log1
      let g2 := gset g1 newPos fishId
      let store2 := store1.set fishId (resetBreed fish)
      { g := g2, store := store2, sup := d.2,
        log := Event.breed fishId childId (x, y) newPos :: log2 }
    else
      let log1 := violLog s.g newPos s.log
      { s with g := gset s.g newPos fishId, sup := d.2, log := log1 }

/-- Go: `func processShark(oldWorld, newWorld *World, x, y int, shark *Creature)`. -/
def processShark (old : World) (s : SimState) (x y : Nat) (sharkId : Nat) : SimState :=
  let shark0 := storeGet s.store sharkId
  let shark1 := decEnergy shark0
  let store1 := s.store.set sharkId shark1
  if shark1.Energy ≤ 0 then
    { s with store := store1 }
  else
    let fishCells := fishCellsOf old store1 s.g x y
    if fishCells.length ≠ 0 then
      let d := draw s.sup fishCells.length
      let newPos := fishCells.getD d.1 (x, y)
      let eatenId := (gget old.grid newPos).getD 0
      let shark2 := setEnergy shark1 old.starve
      let store2 := store1.set sharkId shark2
      let log0 := Event.eat sharkId eatenId (x, y) newPos :: s.log
      if shark2.LastBreed ≥ old.sharkBreed then
        let childId := store2.length
        let store3 := store2 ++ [⟨Species.shark, 0, old.starve, 0⟩]
        let log1 := violLog s.g (x, y) log0
        let g1 := gset s.g (x, y) childId
        let log2 := violLog g1 newPos log1
        let g2 := gset g1 newPos sharkId
        let store4 := store3.set sharkId (resetBreed shark2)
        { g := g2, store := store4, sup := d.2,
          log := Event.breed sharkId childId (x, y) newPos :: log2 }
      else
        let log1 := violLog s.g newPos log0
        { g := gset s.g newPos sharkId, store := store2, sup := d.2, log := log1 }
    else
      let emptyCells := emptyCellsOf old s.g x y
      if emptyCells.length = 0 then
        let log1 := violLog s.g (x, y) s.log
        { s with g := gset s.g (x, y) sharkId, store := store1, log := log1 }
      else
        let d := draw s.sup emptyCells.length
        let newPos := emptyCells.getD d.1 (x, y)
        if shark1.LastBreed ≥ old.sharkBreed then
          let childId := store1.length
          let store2 := store1 ++ [⟨Species.shark, 0, old.starve, 0⟩]
          let log1 := violLog s.g (x, y) s.log
          let g1 := gset s.g (x, y) childId
          let log2 := violLog g1 newPos log1
          let g2 := gset g1 newPos sharkId
          let store3 := store2.set sharkId (resetBreed shark1)
          { g := g2, store := store3, sup := d.2,
            log := Event.breed sharkId childId (x, y) newPos :: log2 }
        else
          let log1 := violLog s.g newPos s.log
          { g := gset s.g newPos sharkId, store := store1, sup := d.2, log := log1 }

/-- The body of the double loop of `processChronon` for one cell `p` of
the old grid: skip empty cells, skip cells whose position in the new
grid is already occupied (recording a `skipCell` event), otherwise
increment `Age` and `LastBreed` in place and dispatch on the species. -/
def stepCell (old : World) (s : SimState) (p : Nat × Nat) : SimState :=
  match gget old.grid p with
  | none => s
  | some cid =>
    match gget s.g p with
    | some occ => { s with log := Event.skipCell p occ :: s.log }
    | none =>
      let c := storeGet s.store cid
      let store1 := s.store.set cid (incr c)
      let s1 := { s with store := store1 }
      match c.species with
      | Species.fish => processFish old s1 p.1 p.2 cid
      | Species.shark => processShark old s1 p.1 p.2 cid
      | Species.empty => s1

/-- The cell visit order of `processChronon`'s double loop:
`for x ...: for y ...`. -/
def scanOrder (size : Nat) : List (Nat × Nat) :=
  (List.range size).flatMap (fun x => (List.range size).map (fun y => (x, y)))

/-- Go: `createWorld` allocates an all-`nil` grid. -/
def emptyGrid (size : Nat) : Grid :=
  List.replicate size (List.replicate size none)

/-- Go: `func processChronon(oldWorld *World, params) *World`: allocate
a new empty grid carrying the same parameters, then scan every old cell
once in order.  Returns the final state (new grid, updated shared
store, remaining supply, event log). -/
def processChronon (old : World) (store : Store) (sup : List Nat) : SimState :=
  (scanOrder old.size).foldl (stepCell old) ⟨emptyGrid old.size, store, sup, []⟩

/-- The world produced by a chronon: the new grid with the parameters
carried over unchanged. -/
def nextWorld (old : World) (s : SimState) : World :=
  { old with grid := s.g }

/-- Go: `func countPopulation(world *World) (int, int)` — fish and
non-fish occupants. -/
def countPopulation (st : Store) (w : World) : Nat × Nat :=
  ((scanOrder w.size).countP (fun p =>
      match gget w.grid p with
      | some id => decide ((storeGet st id).species = Species.fish)
      | none => false),
   (scanOrder w.size).countP (fun p =>
      match gget w.grid p with
      | some id => decide (¬ (storeGet st id).species = Species.fish)
      | none => false))

/-- Well-formed dimensions of a grid: a `size × size` matrix of cells. -/
def GDims (g : Grid) (size : Nat) : Prop :=
  g.length = size ∧ ∀ col ∈ g, col.length = size

/-- Well-formedness of a world and its creature store, as Go
guarantees for every reachable `World`: the grid is `size × size`,
every stored pointer is valid, and two distinct cells never alias the
same creature pointer.  (Stated with bounded quantifiers so that it is
decidable on concrete inputs.) -/
def WF (w : World) (store0 : Store) : Prop :=
  GDims w.grid w.size ∧
  (∀ x, x < w.size → ∀ y, y < w.size →
    match gget w.grid (x, y) with
    | some id => id < store0.length
    | none => True) ∧
  (∀ x, x < w.size → ∀ y, y < w.size → ∀ x', x' < w.size → ∀ y', y' < w.size →
    ¬ (x = x' ∧ y = y') → gget w.grid (x, y) = gget w.grid (x', y') →
    gget w.grid (x, y) = none)

/-- The in-place mutation a starving shark's record has undergone by
the time it is dropped: `Age++`, `LastBreed++`, `Energy--`. -/
def deadUpdate (c : Creature) : Creature :=
  { c with Age := c.Age + 1, LastBreed := c.LastBreed + 1, Energy := c.Energy - 1 }

/-- Does cell `p` of grid `g` hold a creature of species `sp`? -/
def speciesAt (st : Store) (g : Grid) (sp : Species) (p : Nat × Nat) : Bool :=
  match gget g p with
  | some id => decide ((storeGet st id).species = sp)
  | none => false

/-- Number of creatures of species `sp` on the grid. -/
def speciesCount (st : Store) (g : Grid) (size : Nat) (sp : Species) : Nat :=
  (scanOrder size).countP (speciesAt st g sp)

/-- Does `p` have a neighbor that is empty in the old grid?  (Necessary
condition for a move/breed destination of either species.) -/
def hasEmptyNeighbor (w : World) (p : Nat × Nat) : Bool :=
  (adjacentN p.1 p.2 w.size).any (fun q => (gget w.grid q).isNone)

/-- Does `p` have a neighbor holding a Fish in the old grid?
(Necessary condition for a predation destination.) -/
def hasPreyNeighbor (w : World) (store0 : Store) (p : Nat × Nat) : Bool :=
  (adjacentN p.1 p.2 w.size).any (fun q =>
    match gget w.grid q with
    | some id => decide ((storeGet store0 id).species = Species.fish)
    | none => false)

/-- A cell holding a creature of species `sp` that is an eligible
breeder this chronon: its breed timer after the chronon's increment
reaches the species' threshold, and it has a possible destination
(a neighbor empty in the old grid, or — for sharks — holding prey). -/
def eligibleBreeder (w : World) (store0 : Store) (sp : Species) (p : Nat × Nat) : Bool :=
  match gget w.grid p with
  | some id =>
    decide ((storeGet store0 id).species = sp) &&
    (match sp with
     | Species.fish =>
         decide (w.fishBreed ≤ (storeGet store0 id).LastBreed + 1) && hasEmptyNeighbor w p
     | Species.shark =>
         decide (w.sharkBreed ≤ (storeGet store0 id).LastBreed + 1) &&
           (hasPreyNeighbor w store0 p || hasEmptyNeighbor w p)
     | Species.empty => false)
  | none => false

/-- The row-major scan key of a cell. -/
def scanKey (size : Nat) (p : Nat × Nat) : Nat :=
  p.1 * size + p.2

/-- The invariant maintained while the scan of `processChronon` folds
over the cells; `rest` is the list of cells not yet visited, `store0`
the creature store as it was when the chronon started, `w` the old
world. -/
structure Inv (w : World) (store0 : Store) (rest : List (Nat × Nat)) (s : SimState) : Prop where
  storeLen : store0.length ≤ s.store.length
  speciesPres : ∀ id, id < store0.length →
    (storeGet s.store id).species = (storeGet store0 id).species
  untouched : ∀ id, id < store0.length → (∀ q, gget w.grid q ≠ some id) →
    storeGet s.store id = storeGet store0 id
  gdims : GDims s.g w.size
  gvalid : ∀ q id, gget s.g q = some id → id < s.store.length
  ginj : ∀ q q' id, gget s.g q = some id → gget s.g q' = some id → q = q'
  gsource : ∀ q id, gget s.g q = some id →
    store0.length ≤ id ∨ ∃ r, gget w.grid r = some id ∧ r ∉ rest
  unscanned : ∀ q ∈ rest, ∀ id, gget w.grid q = some id →
    storeGet s.store id = storeGet store0 id ∧ ∀ r, gget s.g r ≠ some id
  unscannedOcc : ∀ q ∈ rest, ∀ id occ, gget w.grid q = some id → gget s.g q = some occ →
    (storeGet store0 id).species = Species.fish ∧
    ∃ spos, Event.eat occ id spos q ∈ s.log
  noViol : ∀ q, Event.violation q ∉ s.log
  eatFacts : ∀ sh f spos fpos, Event.eat sh f spos fpos ∈ s.log →
    gget w.grid spos = some sh ∧ (storeGet store0 sh).species = Species.shark ∧
    gget w.grid fpos = some f ∧ (storeGet store0 f).species = Species.fish ∧
    (storeGet s.store sh).Energy = w.starve ∧ spos ∉ rest ∧ sh ≠ f ∧
    gget s.g fpos ≠ none ∧
    (scanKey w.size spos < scanKey w.size fpos → ∀ r, gget s.g r ≠ some f)
  skipFacts : ∀ q occ, Event.skipCell q occ ∈ s.log →
    ∃ fid spos, gget w.grid q = some fid ∧ (storeGet store0 fid).species = Species.fish ∧
      Event.eat occ fid spos q ∈ s.log
  breedFacts : ∀ pid chid origin dest, Event.breed pid chid origin dest ∈ s.log →
    (storeGet s.store pid).LastBreed = 0 ∧ (storeGet s.store chid).LastBreed = 0 ∧
    gget s.g origin = some chid ∧ gget s.g dest = some pid ∧
    store0.length ≤ chid ∧ chid < s.store.length ∧
    gget w.grid origin = some pid ∧ origin ∉ rest
  weakShark : ∀ q id, gget w.grid q = some id →
    (storeGet store0 id).species = Species.shark → (storeGet store0 id).Energy ≤ 1 →
    (∀ r, gget s.g r ≠ some id) ∧
    (q ∉ rest → storeGet s.store id = deadUpdate (storeGet store0 id))
  sharkAlive : 1 ≤ w.starve → ∀ q id, gget s.g q = some id →
    (storeGet s.store id).species = Species.shark → 1 ≤ (storeGet s.store id).Energy

/-- Executable well-formedness check, used to certify `WF` on concrete
inputs (`WF_of_WFb` below). -/
def WFb (w : World) (store0 : Store) : Bool :=
  decide (w.grid.length = w.size) &&
  w.grid.all (fun col => decide (col.length = w.size)) &&
  (List.range w.size).all (fun x => (List.range w.size).all (fun y =>
    match gget w.grid (x, y) with
    | some id => decide (id < store0.length)
    | none => true)) &&
  (List.range w.size).all (fun x => (List.range w.size).all (fun y =>
    (List.range w.size).all (fun a => (List.range w.size).all (fun b =>
      decide (x = a ∧ y = b) ||
      !(decide (gget w.grid (x, y) = gget w.grid (a, b))) ||
      decide (gget w.grid (x, y) = none)))))

/-! Concrete scenario inputs used to instantiate the theorems below. -/

/-- 1×1 world holding a single fish (creature id 0). -/
def soloWorld : World := ⟨[[some 0]], 1, 3, 10, 5⟩

/-- Store for `soloWorld`: the fish, plus a second creature the grid never
references. -/
def soloStore : Store := [⟨Species.fish, 0, 0, 0⟩, ⟨Species.shark, 7, 9, 3⟩]

/-- 2×2 world: shark (id 0) at (0,0), fish (id 1) at (1,0). -/
def duelWorld : World := ⟨[[some 0, none], [some 1, none]], 2, 3, 10, 5⟩

/-- Store for `duelWorld`: the shark has energy 5, the fish is fresh. -/
def duelStore : Store := [⟨Species.shark, 0, 5, 0⟩, ⟨Species.fish, 0, 0, 0⟩]

/-- 3×3 world with a single fish (id 0) at (1,1) and fish breed
threshold 0: the fish breeds on its first move. -/
def lonelyWorld : World := ⟨[[none, none, none], [none, some 0, none], [none, none, none]], 3, 0, 10, 5⟩

/-- Store for `lonelyWorld`. -/
def lonelyStore : Store := [⟨Species.fish, 0, 0, 0⟩]

/-- 3×3 world: fish (id 0) at (0,0), shark (id 1) at (0,1).  The fish is
scanned first and moves away; the shark then "eats" the fish's stale
old-grid cell. -/
def ghostWorld : World := ⟨[[some 0, some 1, none], [none, none, none], [none, none, none]], 3, 10, 10, 5⟩

/-- Store for `ghostWorld`. -/
def ghostStore : Store := [⟨Species.fish, 0, 0, 0⟩, ⟨Species.shark, 0, 5, 0⟩]

/-- 3×3 world with a single fish (id 0) at (0,0) whose breed timer (0) is
strictly below the fish breed threshold (1) at the start of the chronon. -/
def earlyWorld : World := ⟨[[some 0, none, none], [none, none, none], [none, none, none]], 3, 1, 10, 5⟩

/-- Store for `earlyWorld`. -/
def earlyStore : Store := [⟨Species.fish, 0, 0, 0⟩]

/-! ### Toroidal wrapping arithmetic -/

lemma wrapW (x size : Int) (h0 : 0 ≤ x) (h1 : x < size) :
    (x - 1 + size) % size = if x = 0 then size - 1 else x - 1 := by
  split
  · subst x
    have h : (0 : Int) - 1 + size = size - 1 := by ring
    rw [h]
    exact Int.emod_eq_of_lt (by omega) (by omega)
  · have hx1 : (1 : Int) ≤ x := by omega
    have : x - 1 + size = x - 1 + size * 1 := by ring
    rw [this, Int.add_mul_emod_self_left]
    exact Int.emod_eq_of_lt (by omega) (by omega)

lemma wrapE (x size : Int) (h0 : 0 ≤ x) (h1 : x < size) :
    (x + 1) % size = if x + 1 = size then 0 else x + 1 := by
  split
  · simp [*]
  · exact Int.emod_eq_of_lt (by omega) (by omega)

lemma wrapWN (x size : Nat) (h1 : x < size) :
    (x + size - 1) % size = if x = 0 then size - 1 else x - 1 := by
  split
  · subst x
    have h : 0 + size - 1 = size - 1 := by omega
    rw [h]
    exact Nat.mod_eq_of_lt (by omega)
  · have : x + size - 1 = (x - 1) + size := by omega
    rw [this, Nat.add_mod_right]
    exact Nat.mod_eq_of_lt (by omega)

lemma wrapEN (x size : Nat) (h1 : x < size) :
    (x + 1) % size = if x + 1 = size then 0 else x + 1 := by
  split
  · simp [*]
  · exact Nat.mod_eq_of_lt (by omega)

/-- On the source's domain (`0 ≤ x, y < size`), the `Nat` adjacency
used by the engine is exactly the source's `getAdjacentPositions`. -/
lemma adjacentN_coe (x y size : Nat) (hx : x < size) (hy : y < size) :
    (adjacentN x y size).map (fun p => ((p.1 : Int), (p.2 : Int)))
      = getAdjacentPositions (x : Int) (y : Int) (size : Int) := by
  have hs : 0 < size := by omega
  have t1 : ((x : Int) - 1 + size).tmod size = ((x : Int) - 1 + size) % size :=
    Int.tmod_eq_emod (by omega) (by omega)
  have t2 : ((x : Int) + 1).tmod size = ((x : Int) + 1) % size :=
    Int.tmod_eq_emod (by omega) (by omega)
  have t3 : ((y : Int) - 1 + size).tmod size = ((y : Int) - 1 + size) % size :=
    Int.tmod_eq_emod (by omega) (by omega)
  have t4 : ((y : Int) + 1).tmod size = ((y : Int) + 1) % size :=
    Int.tmod_eq_emod (by omega) (by omega)
  have c1 : ((x + size - 1) % size : Nat) = (((x : Int) - 1 + size) % size).toNat := by
    rw [wrapWN x size hx, wrapW (x : Int) size (by omega) (by omega)]
    split <;> omega
  have c2 : ((x + 1) % size : Nat) = (((x : Int) + 1) % size).toNat := by
    rw [wrapEN x size hx, wrapE (x : Int) size (by omega) (by omega)]
    split <;> split <;> omega
  have c3 : ((y + size - 1) % size : Nat) = (((y : Int) - 1 + size) % size).toNat := by
    rw [wrapWN y size hy, wrapW (y : Int) size (by omega) (by omega)]
    split <;> omega
  have c4 : ((y + 1) % size : Nat) = (((y : Int) + 1) % size).toNat := by
    rw [wrapEN y size hy, wrapE (y : Int) size (by omega) (by omega)]
    split <;> split <;> omega
  have n1 : (0 : Int) ≤ ((x : Int) - 1 + size) % size :=
    Int.emod_nonneg _ (by omega)
  have n2 : (0 : Int) ≤ ((x : Int) + 1) % size :=
    Int.emod_nonneg _ (by omega)
  have n3 : (0 : Int) ≤ ((y : Int) - 1 + size) % size :=
    Int.emod_nonneg _ (by omega)
  have n4 : (0 : Int) ≤ ((y : Int) + 1) % size :=
    Int.emod_nonneg _ (by omega)
  simp only [adjacentN, getAdjacentPositions, List.map_cons, List.map_nil, t1, t2, t3, t4,
    List.cons.injEq, Prod.mk.injEq, and_true]
  refine ⟨by omega, by omega, ⟨trivial, by omega⟩, trivial, by omega⟩

/-- Every position produced by `adjacentN` is in range. -/
lemma adjacentN_lt (x y size : Nat) (hs : 0 < size) (hx : x < size) (hy : y < size) :
    ∀ q ∈ adjacentN x y size, q.1 < size ∧ q.2 < size := by
  intro q hq
  simp only [adjacentN, List.mem_cons, List.not_mem_nil, or_false] at hq
  rcases hq with h | h | h | h <;> subst h <;>
    exact ⟨by first | exact Nat.mod_lt _ hs | exact hx,
           by first | exact Nat.mod_lt _ hs | exact hy⟩

/-- C7: for all `0 ≤ x, y < size` with `size ≥ 1`, the adjacency
resolver is a pure total function returning exactly the ordered
sequence west `((x-1+size) mod size, y)`, east `((x+1) mod size, y)`,
north `(x, (y-1+size) mod size)`, south `(x, (y+1) mod size)` (with
`mod` the mathematical, nonnegative modulus); in particular
`neighbors(0,0,N)` contains `(N-1,0)`, `(1,0)`, `(0,N-1)` and `(0,1)`. -/
theorem C7_adjacency :
    (∀ x y size : Int, 1 ≤ size → 0 ≤ x → x < size → 0 ≤ y → y < size →
      getAdjacentPositions x y size =
        [((x - 1 + size) % size, y), ((x + 1) % size, y),
         (x, (y - 1 + size) % size), (x, (y + 1) % size)]) ∧
    (∀ N : Int, 2 ≤ N →
      (N - 1, (0 : Int)) ∈ getAdjacentPositions 0 0 N ∧
      ((1 : Int), (0 : Int)) ∈ getAdjacentPositions 0 0 N ∧
      ((0 : Int), N - 1) ∈ getAdjacentPositions 0 0 N ∧
      ((0 : Int), (1 : Int)) ∈ getAdjacentPositions 0 0 N) := by
  have main : ∀ x y size : Int, 1 ≤ size → 0 ≤ x → x < size → 0 ≤ y → y < size →
      getAdjacentPositions x y size =
        [((x - 1 + size) % size, y), ((x + 1) % size, y),
         (x, (y - 1 + size) % size), (x, (y + 1) % size)] := by
    intro x y size hs hx0 hx1 hy0 hy1
    simp only [getAdjacentPositions,
      Int.tmod_eq_emod (a := x - 1 + size) (b := size) (by omega) (by omega),
      Int.tmod_eq_emod (a := x + 1) (b := size) (by omega) (by omega),
      Int.tmod_eq_emod (a := y - 1 + size) (b := size) (by omega) (by omega),
      Int.tmod_eq_emod (a := y + 1) (b := size) (by omega) (by omega)]
  refine ⟨main, ?_⟩
  intro N hN
  rw [main 0 0 N (by omega) (by omega) (by omega) (by omega) (by omega),
    wrapW 0 N (by omega) (by omega), wrapE 0 N (by omega) (by omega),
    if_pos rfl, if_neg (by omega : ¬ (0 : Int) + 1 = N)]
  norm_num

/-- C10: the adjacency resolver always returns exactly 4 positions,
possibly with repetitions: for `size = 1` (in range: `x = y = 0`) all
four equal `(x, y)`; for `size = 2` west/east coincide and north/south
coincide; for `size ≥ 3` and in-range `x, y` the four positions are
pairwise distinct and all differ from `(x, y)`. -/
theorem C10_adjacency_multiset :
    (∀ x y size : Int, (getAdjacentPositions x y size).length = 4) ∧
    (∀ x y : Int, 0 ≤ x → x < 1 → 0 ≤ y → y < 1 →
      ∀ q ∈ getAdjacentPositions x y 1, q = (x, y)) ∧
    (∀ x y : Int, ∃ a b, getAdjacentPositions x y 2 = [(a, y), (a, y), (x, b), (x, b)]) ∧
    (∀ x y size : Int, 3 ≤ size → 0 ≤ x → x < size → 0 ≤ y → y < size →
      (getAdjacentPositions x y size).Nodup ∧
      ∀ q ∈ getAdjacentPositions x y size, q ≠ (x, y)) := by
  refine ⟨fun x y size => rfl, ?_, ?_, ?_⟩
  · intro x y hx0 hx1 hy0 hy1
    have hx : x = 0 := by omega
    have hy : y = 0 := by omega
    subst hx; subst hy
    decide
  · intro x y
    refine ⟨(x + 1).tmod 2, (y + 1).tmod 2, ?_⟩
    have h1 : x - 1 + 2 = x + 1 := by ring
    have h2 : y - 1 + 2 = y + 1 := by ring
    rw [getAdjacentPositions, h1, h2]
  · intro x y size hs hx0 hx1 hy0 hy1
    have e1 : (x - 1 + size).tmod size = if x = 0 then size - 1 else x - 1 := by
      rw [Int.tmod_eq_emod (by omega) (by omega)]
      exact wrapW x size (by omega) (by omega)
    have e2 : (x + 1).tmod size = if x + 1 = size then 0 else x + 1 := by
      rw [Int.tmod_eq_emod (by omega) (by omega)]
      exact wrapE x size (by omega) (by omega)
    have e3 : (y - 1 + size).tmod size = if y = 0 then size - 1 else y - 1 := by
      rw [Int.tmod_eq_emod (by omega) (by omega)]
      exact wrapW y size (by omega) (by omega)
    have e4 : (y + 1).tmod size = if y + 1 = size then 0 else y + 1 := by
      rw [Int.tmod_eq_emod (by omega) (by omega)]
      exact wrapE y size (by omega) (by omega)
    have w1 : (x - 1 + size).tmod size ≠ x := by rw [e1]; split_ifs <;> omega
    have w2 : (x + 1).tmod size ≠ x := by rw [e2]; split_ifs <;> omega
    have w3 : (x - 1 + size).tmod size ≠ (x + 1).tmod size := by
      rw [e1, e2]; split_ifs <;> omega
    have w4 : (y - 1 + size).tmod size ≠ y := by rw [e3]; split_ifs <;> omega
    have w5 : (y + 1).tmod size ≠ y := by rw [e4]; split_ifs <;> omega
    have w6 : (y - 1 + size).tmod size ≠ (y + 1).tmod size := by
      rw [e3, e4]; split_ifs <;> omega
    constructor
    · simp only [getAdjacentPositions, List.nodup_cons, List.mem_cons,
        List.not_mem_nil, or_false, List.mem_singleton, List.nodup_nil, and_true,
        Prod.mk.injEq, not_or, not_and]
      exact ⟨⟨w3, fun h => absurd h w1, fun h => absurd h w1⟩,
        ⟨fun h => absurd h w2, fun h => absurd h w2⟩, fun _ => w6, not_false⟩
    · intro q hq
      simp only [getAdjacentPositions, List.mem_cons, List.not_mem_nil, or_false] at hq
      rcases hq with h | h | h | h <;> subst h <;>
        simp only [ne_eq, Prod.mk.injEq, not_and] <;>
        first
          | exact fun h => absurd h w1
          | exact fun h => absurd h w2
          | exact fun _ => w4
          | exact fun _ => w5

/-- Witness for C7: concrete instance `(x, y, size) = (1, 1, 3)`, `N = 3`. -/
theorem C7_adjacency_witness :
    ((1 : Int) < 3 ∧ (2 : Int) ≤ 3) ∧
    getAdjacentPositions 1 1 3 =
      [((1 - 1 + 3 : Int) % 3, 1), ((1 + 1 : Int) % 3, 1),
       ((1 : Int), (1 - 1 + 3 : Int) % 3), ((1 : Int), (1 + 1 : Int) % 3)] ∧
    ((3 - 1 : Int), (0 : Int)) ∈ getAdjacentPositions 0 0 3 :=
  ⟨⟨by decide, by decide⟩,
   C7_adjacency.1 1 1 3 (by decide) (by decide) (by decide) (by decide) (by decide),
   (C7_adjacency.2 3 (by decide)).1⟩

/-- Witness for C10: concrete instance `(x, y, size) = (1, 1, 3)`. -/
theorem C10_adjacency_multiset_witness :
    ((3 : Int) ≤ 3 ∧ (0 : Int) ≤ 1) ∧ (getAdjacentPositions 1 1 3).Nodup :=
  ⟨⟨by decide, by decide⟩,
   (C10_adjacency_multiset.2.2.2 1 1 3 (by decide) (by decide) (by decide)
     (by decide) (by decide)).1⟩

/-! ### The scan order of the double loop -/

/-- The row-major scan visits exactly the cells `(k / size, k % size)`
for `k < size * size`, in increasing order of `k`. -/
lemma scanOrder_eq (size : Nat) :
    scanOrder size = (List.range (size * size)).map (fun k => (k / size, k % size)) := by
  have aux : ∀ n : Nat,
      (List.range n).flatMap (fun x => (List.range size).map (fun y => (x, y)))
        = (List.range (n * size)).map (fun k => (k / size, k % size)) := by
    intro n
    induction n with
    | zero => simp
    | succ m ih =>
      rw [List.range_succ, List.flatMap_append, ih, Nat.succ_mul, List.range_add,
        List.map_append, List.map_map]
      congr 1
      simp only [List.flatMap_cons, List.flatMap_nil, List.append_nil]
      refine List.map_congr_left ?_
      intro j hj
      have hjs : j < size := List.mem_range.mp hj
      have hs : 0 < size := by omega
      have hd : (m * size + j) / size = m := by
        rw [Nat.add_comm, Nat.add_mul_div_right _ _ hs, Nat.div_eq_of_lt hjs, Nat.zero_add]
      have hm : (m * size + j) % size = j := by
        rw [Nat.add_comm, Nat.add_mul_mod_self_right]
        exact Nat.mod_eq_of_lt hjs
      simp [Function.comp, hd, hm]
  exact aux size

/-- A cell is scanned iff it is in range. -/
lemma mem_scanOrder (size : Nat) (p : Nat × Nat) :
    p ∈ scanOrder size ↔ p.1 < size ∧ p.2 < size := by
  constructor
  · intro hp
    simp only [scanOrder, List.mem_flatMap, List.mem_map, List.mem_range] at hp
    obtain ⟨x, hx, y, hy, hxy⟩ := hp
    subst hxy
    exact ⟨hx, hy⟩
  · intro ⟨h1, h2⟩
    simp only [scanOrder, List.mem_flatMap, List.mem_map, List.mem_range]
    exact ⟨p.1, h1, p.2, h2, rfl⟩

/-- Decomposing the scan as `done ++ p :: rest`: the current cell `p`
has row-major key `done.length`, and every unscanned cell has a
strictly larger key (in particular `p ∉ rest`). -/
lemma scanOrder_split (size : Nat) (done rest : List (Nat × Nat)) (p : Nat × Nat)
    (h : scanOrder size = done ++ p :: rest) :
    (p.1 < size ∧ p.2 < size ∧ p.1 * size + p.2 = done.length) ∧
    (∀ q ∈ rest, q.1 < size ∧ q.2 < size ∧ done.length < q.1 * size + q.2) ∧
    (∀ q ∈ done, q.1 * size + q.2 < done.length) := by
  rw [scanOrder_eq] at h
  have hlen : size * size = done.length + (rest.length + 1) := by
    have := congrArg List.length h
    simp at this
    omega
  have key : ∀ k, k < size * size →
      ((List.range (size * size)).map (fun k => (k / size, k % size)))[k]?
        = some (k / size, k % size) := by
    intro k hk
    rw [List.getElem?_map, List.getElem?_range hk]
    rfl
  have fact : ∀ k, k < size * size →
      (k / size < size ∧ k % size < size ∧ (k / size) * size + k % size = k) := by
    intro k hk
    have hs : 0 < size := by
      by_contra hs0
      have h0 : size = 0 := by omega
      subst h0
      simp at hk
    refine ⟨?_, Nat.mod_lt _ hs, ?_⟩
    · exact Nat.div_lt_of_lt_mul hk
    · rw [Nat.mul_comm]
      exact Nat.div_add_mod k size
  have hp : p = (done.length / size, done.length % size) := by
    have h1 : (done ++ p :: rest)[done.length]? = some p := by
      rw [List.getElem?_append_right (Nat.le_refl _), Nat.sub_self]
      exact List.getElem?_cons_zero
    rw [← h] at h1
    rw [key done.length (by omega)] at h1
    exact (Option.some.injEq _ _).mp h1.symm
  have hfp := fact done.length (by omega)
  refine ⟨?_, ?_, ?_⟩
  · rw [hp]
    exact ⟨hfp.1, hfp.2.1, hfp.2.2⟩
  · intro q hq
    obtain ⟨i, hi, hqi⟩ := List.getElem_of_mem hq
    have hk : done.length + 1 + i < size * size := by omega
    have h1 : (done ++ p :: rest)[done.length + 1 + i]? = some q := by
      rw [List.getElem?_append_right (by omega)]
      have h2 : done.length + 1 + i - done.length = i + 1 := by omega
      rw [h2, List.getElem?_cons_succ, List.getElem?_eq_getElem hi, hqi]
    rw [← h, key _ hk] at h1
    have hq2 : q = ((done.length + 1 + i) / size, (done.length + 1 + i) % size) :=
      ((Option.some.injEq _ _).mp h1).symm
    have hf := fact (done.length + 1 + i) hk
    subst hq2
    dsimp only
    exact ⟨hf.1, hf.2.1, by omega⟩
  · intro q hq
    obtain ⟨i, hi, hqi⟩ := List.getElem_of_mem hq
    have hk : i < size * size := by omega
    have h1 : (done ++ p :: rest)[i]? = some q := by
      rw [List.getElem?_append_left hi, List.getElem?_eq_getElem hi, hqi]
    rw [← h, key _ hk] at h1
    have hq2 : q = (i / size, i % size) :=
      ((Option.some.injEq _ _).mp h1).symm
    have hf := fact i hk
    subst hq2
    dsimp only
    omega

/-- The scan visits each cell exactly once. -/
lemma scanOrder_nodup (size : Nat) : (scanOrder size).Nodup := by
  rw [scanOrder_eq]
  refine List.Nodup.map_on ?_ (List.nodup_range _)
  intro k hk k' hk' hf
  rw [List.mem_range] at hk hk'
  have hs : 0 < size := by
    by_contra hs0
    have h0 : size = 0 := by omega
    subst h0
    simp at hk
  have e1 := Nat.div_add_mod k size
  have e2 := Nat.div_add_mod k' size
  have h1 : k / size = k' / size := congrArg Prod.fst hf
  have h2 : k % size = k' % size := congrArg Prod.snd hf
  rw [h1, h2] at e1
  omega

/-! ### List primitives: `getD` through `set`, `append`, `replicate` -/

lemma getD_set_self {α : Type} (l : List α) (i : Nat) (x d : α) (h : i < l.length) :
    (l.set i x).getD i d = x := by
  simp [List.getD_eq_getElem?_getD, List.getElem?_set_self h]

lemma getD_set_ne {α : Type} (l : List α) (i j : Nat) (x d : α) (h : i ≠ j) :
    (l.set i x).getD j d = l.getD j d := by
  simp [List.getD_eq_getElem?_getD, List.getElem?_set_ne h]

lemma getD_append_lt {α : Type} (l l' : List α) (i : Nat) (d : α) (h : i < l.length) :
    (l ++ l').getD i d = l.getD i d := by
  simp [List.getD_eq_getElem?_getD, List.getElem?_append_left h]

lemma getD_append_self {α : Type} (l : List α) (x d : α) :
    (l ++ [x]).getD l.length d = x := by
  simp [List.getD_eq_getElem?_getD, List.getElem?_append_right (Nat.le_refl _)]

lemma getD_ge {α : Type} (l : List α) (i : Nat) (d : α) (h : l.length ≤ i) :
    l.getD i d = d := by
  simp [List.getD_eq_getElem?_getD, List.getElem?_eq_none h]

/-- Additive one-point update for `countP` on a duplicate-free list:
changing the predicate's value at a single member shifts the count by
exactly the difference at that member. -/
lemma countP_update {α : Type} (l : List α) (a : α) (p q : α → Bool)
    (hnd : l.Nodup) (ha : a ∈ l) (hsame : ∀ b ∈ l, b ≠ a → p b = q b) :
    l.countP q + (if p a then 1 else 0) = l.countP p + (if q a then 1 else 0) := by
  induction l with
  | nil => cases ha
  | cons x xs ih =>
    have hnd1 : x ∉ xs := (List.nodup_cons.mp hnd).1
    have hnd2 : xs.Nodup := (List.nodup_cons.mp hnd).2
    rw [List.countP_cons, List.countP_cons]
    rcases List.mem_cons.mp ha with hax | hax
    · have hxs : xs.countP p = xs.countP q :=
        List.countP_congr (fun b hb => by
          rw [hsame b (List.mem_cons_of_mem _ hb) (fun hba => hnd1 (hax ▸ hba ▸ hb))])
      rw [hxs, ← hax]
      omega
    · have hxa : x ≠ a := fun hxa => hnd1 (hxa ▸ hax)
      have hpx : p x = q x := hsame x (List.mem_cons_self x xs) hxa
      have hih := ih hnd2 hax (fun b hb hba => hsame b (List.mem_cons_of_mem _ hb) hba)
      rw [hpx]
      omega

/-! ### Grid primitives -/

lemma gget_emptyGrid (size : Nat) (p : Nat × Nat) : gget (emptyGrid size) p = none := by
  unfold gget emptyGrid
  rcases Nat.lt_or_ge p.1 size with h | h
  · have hrow : (List.replicate size (List.replicate size (none : Option Nat))).getD p.1 []
        = List.replicate size none := by
      rw [List.getD_eq_getElem?_getD, List.getElem?_replicate_of_lt h]
      rfl
    rw [hrow]
    rcases Nat.lt_or_ge p.2 size with h2 | h2
    · rw [List.getD_eq_getElem?_getD, List.getElem?_replicate_of_lt h2]
      rfl
    · exact getD_ge _ _ _ (by simpa using h2)
  · have hrow : (List.replicate size (List.replicate size (none : Option Nat))).getD p.1 []
        = [] := getD_ge _ _ _ (by simpa using h)
    rw [hrow]
    rfl

lemma gset_length (g : Grid) (p : Nat × Nat) (id : Nat) :
    (gset g p id).length = g.length := by
  simp [gset]

lemma gdims_emptyGrid (size : Nat) : GDims (emptyGrid size) size := by
  constructor
  · simp [emptyGrid]
  · intro col hcol
    rw [List.eq_of_mem_replicate hcol]
    simp

lemma getD_mem {α : Type} (l : List α) (i : Nat) (d : α) (h : i < l.length) :
    l.getD i d ∈ l := by
  rw [List.getD_eq_getElem?_getD, List.getElem?_eq_getElem h]
  exact List.getElem_mem h

lemma gdims_gset (g : Grid) (size : Nat) (p : Nat × Nat) (id : Nat)
    (h : GDims g size) : GDims (gset g p id) size := by
  obtain ⟨h1, h2⟩ := h
  rcases Nat.lt_or_ge p.1 g.length with h4 | h4
  · refine ⟨by simp [gset, h1], ?_⟩
    intro col hcol
    rcases List.mem_or_eq_of_mem_set hcol with h3 | h3
    · exact h2 col h3
    · subst h3
      rw [List.length_set]
      exact h2 _ (getD_mem _ _ _ h4)
  · have heq : gset g p id = g := List.set_eq_of_length_le h4
    rw [heq]
    exact ⟨h1, h2⟩

lemma gget_oob (g : Grid) (size : Nat) (p : Nat × Nat) (h : GDims g size)
    (hp : ¬ (p.1 < size ∧ p.2 < size)) : gget g p = none := by
  obtain ⟨h1, h2⟩ := h
  unfold gget
  rcases Nat.lt_or_ge p.1 g.length with h3 | h3
  · have hcol : g.getD p.1 [] ∈ g := getD_mem _ _ _ h3
    have hlen : (g.getD p.1 []).length = size := h2 _ hcol
    have hp2 : size ≤ p.2 := by omega
    exact getD_ge _ _ _ (by omega)
  · rw [getD_ge _ _ _ h3]
    simp

lemma gget_gset_self (g : Grid) (size : Nat) (p : Nat × Nat) (id : Nat)
    (h : GDims g size) (h1 : p.1 < size) (h2 : p.2 < size) :
    gget (gset g p id) p = some id := by
  obtain ⟨hl, hc⟩ := h
  unfold gget gset
  rw [getD_set_self _ _ _ _ (by omega)]
  have hcol : g.getD p.1 [] ∈ g := getD_mem _ _ _ (by omega)
  rw [getD_set_self _ _ _ _ (by rw [hc _ hcol]; omega)]

lemma gget_gset_ne (g : Grid) (p q : Nat × Nat) (id : Nat) (h : q ≠ p) :
    gget (gset g p id) q = gget g q := by
  unfold gget gset
  rcases eq_or_ne q.1 p.1 with h1 | h1
  · have h2 : q.2 ≠ p.2 := by
      intro h2
      exact h (by rw [Prod.ext_iff]; exact ⟨h1, h2⟩)
    rcases Nat.lt_or_ge p.1 g.length with h3 | h3
    · rw [h1, getD_set_self _ _ _ _ h3, getD_set_ne _ _ _ _ _ (Ne.symm h2)]
    · rw [List.set_eq_of_length_le h3]
  · rw [getD_set_ne _ _ _ _ _ (Ne.symm h1)]

/-! ### Store primitives -/

lemma storeGet_set_self (st : Store) (id : Nat) (c : Creature) (h : id < st.length) :
    storeGet (st.set id c) id = c := by
  unfold storeGet
  exact getD_set_self st id c defaultCreature h

lemma storeGet_set_ne (st : Store) (id j : Nat) (c : Creature) (h : j ≠ id) :
    storeGet (st.set id c) j = storeGet st j := by
  unfold storeGet
  exact getD_set_ne st id j c defaultCreature (Ne.symm h)

lemma storeGet_append_lt (st l : Store) (id : Nat) (h : id < st.length) :
    storeGet (st ++ l) id = storeGet st id := by
  unfold storeGet
  exact getD_append_lt st l id defaultCreature h

lemma storeGet_append_self (st : Store) (c : Creature) :
    storeGet (st ++ [c]) st.length = c := by
  unfold storeGet
  exact getD_append_self st c defaultCreature

lemma storeGet_ge (st : Store) (id : Nat) (h : st.length ≤ id) :
    storeGet st id = defaultCreature := by
  unfold storeGet
  exact getD_ge st id defaultCreature h

/-! ### Counting lemmas -/

lemma speciesAt_congr {st st' : Store} {g : Grid} {sp : Species} {q : Nat × Nat}
    (h : ∀ id, gget g q = some id →
      (storeGet st' id).species = (storeGet st id).species) :
    speciesAt st' g sp q = speciesAt st g sp q := by
  unfold speciesAt
  cases hgg : gget g q with
  | none => rfl
  | some id =>
    show decide ((storeGet st' id).species = sp)
        = decide ((storeGet st id).species = sp)
    rw [h id hgg]

lemma speciesCount_congr {st st' : Store} (g : Grid) (size : Nat) (sp : Species)
    (h : ∀ q id, gget g q = some id →
      (storeGet st' id).species = (storeGet st id).species) :
    speciesCount st' g size sp = speciesCount st g size sp := by
  unfold speciesCount
  refine List.countP_congr ?_
  intro q _
  rw [speciesAt_congr (fun id hid => h q id hid)]

lemma speciesCount_gset (st : Store) (g : Grid) (size : Nat) (sp : Species)
    (t : Nat × Nat) (id : Nat) (h1 : t.1 < size) (h2 : t.2 < size)
    (hg : GDims g size) (hvac : gget g t = none) :
    speciesCount st (gset g t id) size sp
      = speciesCount st g size sp
        + (if (storeGet st id).species = sp then 1 else 0) := by
  unfold speciesCount
  have hupd := countP_update (scanOrder size) t (speciesAt st g sp)
    (speciesAt st (gset g t id) sp) (scanOrder_nodup size)
    ((mem_scanOrder size t).mpr ⟨h1, h2⟩)
    (fun b _ hbt => by
      unfold speciesAt
      rw [gget_gset_ne g t b id hbt])
  have hat : speciesAt st g sp t = false := by
    unfold speciesAt
    rw [hvac]
  have hat' : speciesAt st (gset g t id) sp t
      = decide ((storeGet st id).species = sp) := by
    unfold speciesAt
    rw [gget_gset_self g size t id hg h1 h2]
  rw [hat, hat'] at hupd
  simp only [Bool.false_eq_true, if_false, Nat.add_zero, decide_eq_true_eq] at hupd
  exact hupd

/-! ### Consequences of well-formedness -/

lemma wf_valid {w : World} {store0 : Store} (h : WF w store0) {p : Nat × Nat} {id : Nat}
    (hp : gget w.grid p = some id) : id < store0.length := by
  have hrange : p.1 < w.size ∧ p.2 < w.size := by
    by_contra hc
    rw [gget_oob w.grid w.size p h.1 hc] at hp
    cases hp
  have h2 := h.2.1 p.1 hrange.1 p.2 hrange.2
  have hpp : (p.1, p.2) = p := rfl
  rw [hpp, hp] at h2
  exact h2

lemma wf_inj {w : World} {store0 : Store} (h : WF w store0) {p q : Nat × Nat} {id : Nat}
    (hp : gget w.grid p = some id) (hq : gget w.grid q = some id) : p = q := by
  have hrp : p.1 < w.size ∧ p.2 < w.size := by
    by_contra hc
    rw [gget_oob w.grid w.size p h.1 hc] at hp
    cases hp
  have hrq : q.1 < w.size ∧ q.2 < w.size := by
    by_contra hc
    rw [gget_oob w.grid w.size q h.1 hc] at hq
    cases hq
  by_contra hne
  have hne' : ¬ (p.1 = q.1 ∧ p.2 = q.2) := by
    intro ⟨h1, h2⟩
    exact hne (by rw [Prod.ext_iff]; exact ⟨h1, h2⟩)
  have h3 := h.2.2 p.1 hrp.1 p.2 hrp.2 q.1 hrq.1 q.2 hrq.2 hne'
  have hpp : (p.1, p.2) = p := rfl
  have hqq : (q.1, q.2) = q := rfl
  rw [hpp, hqq] at h3
  rw [h3 (hp.trans hq.symm)] at hp
  cases hp

/-! ### Branch characterizations of the step function -/

lemma violLog_vacant {g : Grid} {p : Nat × Nat} {log : List Event}
    (h : gget g p = none) : violLog g p log = log := by
  unfold violLog
  rw [h]
  rfl

lemma stepCell_none {w : World} {s : SimState} {p : Nat × Nat}
    (h : gget w.grid p = none) : stepCell w s p = s := by
  unfold stepCell
  rw [h]

lemma stepCell_skip {w : World} {s : SimState} {p : Nat × Nat} {cid occ : Nat}
    (h : gget w.grid p = some cid) (h2 : gget s.g p = some occ) :
    stepCell w s p = { s with log := Event.skipCell p occ :: s.log } := by
  unfold stepCell
  rw [h, h2]

lemma stepCell_proc_fish {w : World} {s : SimState} {p : Nat × Nat} {cid : Nat}
    (h : gget w.grid p = some cid) (h2 : gget s.g p = none)
    (hsp : (storeGet s.store cid).species = Species.fish) :
    stepCell w s p = processFish w
      { s with store := s.store.set cid (incr (storeGet s.store cid)) } p.1 p.2 cid := by
  unfold stepCell
  rw [h, h2]
  dsimp only
  rw [hsp]

lemma stepCell_proc_shark {w : World} {s : SimState} {p : Nat × Nat} {cid : Nat}
    (h : gget w.grid p = some cid) (h2 : gget s.g p = none)
    (hsp : (storeGet s.store cid).species = Species.shark) :
    stepCell w s p = processShark w
      { s with store := s.store.set cid (incr (storeGet s.store cid)) } p.1 p.2 cid := by
  unfold stepCell
  rw [h, h2]
  dsimp only
  rw [hsp]

lemma stepCell_proc_empty {w : World} {s : SimState} {p : Nat × Nat} {cid : Nat}
    (h : gget w.grid p = some cid) (h2 : gget s.g p = none)
    (hsp : (storeGet s.store cid).species = Species.empty) :
    stepCell w s p =
      { s with store := s.store.set cid (incr (storeGet s.store cid)) } := by
  unfold stepCell
  rw [h, h2]
  dsimp only
  rw [hsp]

lemma processFish_stay {w : World} {s : SimState} {x y fid : Nat}
    (h : emptyCellsOf w s.g x y = []) :
    processFish w s x y fid =
      { s with g := gset s.g (x, y) fid, log := violLog s.g (x, y) s.log } := by
  unfold processFish
  rw [h]
  rfl

lemma processFish_move {w : World} {s : SimState} {x y fid : Nat}
    (h : emptyCellsOf w s.g x y ≠ [])
    (hb : ¬ (storeGet s.store fid).LastBreed ≥ w.fishBreed) :
    processFish w s x y fid =
      { s with
          g := gset s.g ((emptyCellsOf w s.g x y).getD
                 (draw s.sup (emptyCellsOf w s.g x y).length).1 (x, y)) fid,
          sup := (draw s.sup (emptyCellsOf w s.g x y).length).2,
          log := violLog s.g ((emptyCellsOf w s.g x y).getD
                 (draw s.sup (emptyCellsOf w s.g x y).length).1 (x, y)) s.log } := by
  unfold processFish
  rw [if_neg (by
    intro hlen
    exact h (List.eq_nil_of_length_eq_zero hlen)), if_neg hb]

lemma processFish_breed {w : World} {s : SimState} {x y fid : Nat}
    (h : emptyCellsOf w s.g x y ≠ [])
    (hb : (storeGet s.store fid).LastBreed ≥ w.fishBreed) :
    processFish w s x y fid =
      { g := gset (gset s.g (x, y) s.store.length)
               ((emptyCellsOf w s.g x y).getD
                 (draw s.sup (emptyCellsOf w s.g x y).length).1 (x, y)) fid,
        store := (s.store ++ [(⟨Species.fish, 0, 0, 0⟩ : Creature)]).set fid
          (resetBreed (storeGet s.store fid)),
        sup := (draw s.sup (emptyCellsOf w s.g x y).length).2,
        log := Event.breed fid s.store.length (x, y)
            ((emptyCellsOf w s.g x y).getD
              (draw s.sup (emptyCellsOf w s.g x y).length).1 (x, y))
          :: violLog (gset s.g (x, y) s.store.length)
               ((emptyCellsOf w s.g x y).getD
                 (draw s.sup (emptyCellsOf w s.g x y).length).1 (x, y))
               (violLog s.g (x, y) s.log) } := by
  unfold processFish
  rw [if_neg (by
    intro hlen
    exact h (List.eq_nil_of_length_eq_zero hlen)), if_pos hb]

lemma processShark_dead {w : World} {s : SimState} {x y sid : Nat}
    (h : (decEnergy (storeGet s.store sid)).Energy ≤ 0) :
    processShark w s x y sid =
      { s with store := s.store.set sid (decEnergy (storeGet s.store sid)) } := by
  unfold processShark
  rw [if_pos h]

lemma processShark_eat_nobreed {w : World} {s : SimState} {x y sid : Nat}
    (he : ¬ (decEnergy (storeGet s.store sid)).Energy ≤ 0)
    (hf : fishCellsOf w (s.store.set sid (decEnergy (storeGet s.store sid))) s.g x y ≠ [])
    (hb : ¬ (setEnergy (decEnergy (storeGet s.store sid)) w.starve).LastBreed ≥ w.sharkBreed) :
    processShark w s x y sid =
      (let st1 := s.store.set sid (decEnergy (storeGet s.store sid))
       let fc := fishCellsOf w st1 s.g x y
       let d := draw s.sup fc.length
       let newPos := fc.getD d.1 (x, y)
       { g := gset s.g newPos sid,
         store := st1.set sid (setEnergy (decEnergy (storeGet s.store sid)) w.starve),
         sup := d.2,
         log := violLog s.g newPos
           (Event.eat sid ((gget w.grid newPos).getD 0) (x, y) newPos :: s.log) }) := by
  unfold processShark
  rw [if_neg he, if_pos (by
    intro hlen
    exact hf (List.eq_nil_of_length_eq_zero hlen)), if_neg hb]

lemma processShark_eat_breed {w : World} {s : SimState} {x y sid : Nat}
    (he : ¬ (decEnergy (storeGet s.store sid)).Energy ≤ 0)
    (hf : fishCellsOf w (s.store.set sid (decEnergy (storeGet s.store sid))) s.g x y ≠ [])
    (hb : (setEnergy (decEnergy (storeGet s.store sid)) w.starve).LastBreed ≥ w.sharkBreed) :
    processShark w s x y sid =
      (let st1 := s.store.set sid (decEnergy (storeGet s.store sid))
       let fc := fishCellsOf w st1 s.g x y
       let d := draw s.sup fc.length
       let newPos := fc.getD d.1 (x, y)
       let st2 := st1.set sid (setEnergy (decEnergy (storeGet s.store sid)) w.starve)
       let childId := st2.length
       { g := gset (gset s.g (x, y) childId) newPos sid,
         store := (st2 ++ [(⟨Species.shark, 0, w.starve, 0⟩ : Creature)]).set sid
           (resetBreed (setEnergy (decEnergy (storeGet s.store sid)) w.starve)),
         sup := d.2,
         log := Event.breed sid childId (x, y) newPos ::
           violLog (gset s.g (x, y) childId) newPos
             (violLog s.g (x, y)
               (Event.eat sid ((gget w.grid newPos).getD 0) (x, y) newPos :: s.log)) }) := by
  unfold processShark
  rw [if_neg he, if_pos (by
    intro hlen
    exact hf (List.eq_nil_of_length_eq_zero hlen)), if_pos hb]

lemma processShark_stay {w : World} {s : SimState} {x y sid : Nat}
    (he : ¬ (decEnergy (storeGet s.store sid)).Energy ≤ 0)
    (hf : fishCellsOf w (s.store.set sid (decEnergy (storeGet s.store sid))) s.g x y = [])
    (hemp : emptyCellsOf w s.g x y = []) :
    processShark w s x y sid =
      { s with g := gset s.g (x, y) sid,
               store := s.store.set sid (decEnergy (storeGet s.store sid)),
               log := violLog s.g (x, y) s.log } := by
  unfold processShark
  rw [if_neg he, if_neg (by simp [hf]), hemp]
  rfl

lemma processShark_move_nobreed {w : World} {s : SimState} {x y sid : Nat}
    (he : ¬ (decEnergy (storeGet s.store sid)).Energy ≤ 0)
    (hf : fishCellsOf w (s.store.set sid (decEnergy (storeGet s.store sid))) s.g x y = [])
    (hemp : emptyCellsOf w s.g x y ≠ [])
    (hb : ¬ (decEnergy (storeGet s.store sid)).LastBreed ≥ w.sharkBreed) :
    processShark w s x y sid =
      (let ec := emptyCellsOf w s.g x y
       let d := draw s.sup ec.length
       let newPos := ec.getD d.1 (x, y)
       { g := gset s.g newPos sid,
         store := s.store.set sid (decEnergy (storeGet s.store sid)),
         sup := d.2,
         log := violLog s.g newPos s.log }) := by
  unfold processShark
  rw [if_neg he, if_neg (by simp [hf]), if_neg (by
    intro hlen
    exact hemp (List.eq_nil_of_length_eq_zero hlen)), if_neg hb]

lemma processShark_move_breed {w : World} {s : SimState} {x y sid : Nat}
    (he : ¬ (decEnergy (storeGet s.store sid)).Energy ≤ 0)
    (hf : fishCellsOf w (s.store.set sid (decEnergy (storeGet s.store sid))) s.g x y = [])
    (hemp : emptyCellsOf w s.g x y ≠ [])
    (hb : (decEnergy (storeGet s.store sid)).LastBreed ≥ w.sharkBreed) :
    processShark w s x y sid =
      (let st1 := s.store.set sid (decEnergy (storeGet s.store sid))
       let ec := emptyCellsOf w s.g x y
       let d := draw s.sup ec.length
       let newPos := ec.getD d.1 (x, y)
       let childId := st1.length
       { g := gset (gset s.g (x, y) childId) newPos sid,
         store := (st1 ++ [(⟨Species.shark, 0, w.starve, 0⟩ : Creature)]).set sid
           (resetBreed (decEnergy (storeGet s.store sid))),
         sup := d.2,
         log := Event.breed sid childId (x, y) newPos ::
           violLog (gset s.g (x, y) childId) newPos (violLog s.g (x, y) s.log) }) := by
  unfold processShark
  rw [if_neg he, if_neg (by simp [hf]), if_neg (by
    intro hlen
    exact hemp (List.eq_nil_of_length_eq_zero hlen)), if_pos hb]

lemma speciesAt_some {st : Store} {g : Grid} {sp : Species} {t : Nat × Nat} {id : Nat}
    (h : gget g t = some id) :
    speciesAt st g sp t = decide ((storeGet st id).species = sp) := by
  unfold speciesAt
  rw [h]

/-! ### Invariant preservation: single placement

Covers the branches of the step that place exactly one creature (the
scanned one) into the new grid: fish stay, fish plain move, shark
stay, shark plain move, shark predation move.  The target cell `t` is
either the creature's own cell or a vacant in-range cell; `c'` is the
final state of the creature's record. -/

lemma inv_place (w : World) (store0 : Store) (rest : List (Nat × Nat)) (p t : Nat × Nat)
    (s : SimState) (cid : Nat) (c' : Creature) (sup' : List Nat)
    (hwf : WF w store0)
    (hinv : Inv w store0 (p :: rest) s)
    (hold : gget w.grid p = some cid)
    (hnew : gget s.g p = none)
    (hp1 : p.1 < w.size) (hp2 : p.2 < w.size)
    (hpnr : p ∉ rest)
    (hsp' : c'.species = (storeGet store0 cid).species)
    (ht : t = p ∨ (t.1 < w.size ∧ t.2 < w.size ∧ gget w.grid t = none ∧ gget s.g t = none))
    (halive : 1 ≤ w.starve → c'.species = Species.shark → 1 ≤ c'.Energy)
    (hnotweak : (storeGet store0 cid).species = Species.shark →
       ¬ (storeGet store0 cid).Energy ≤ 1) :
    Inv w store0 rest
      { g := gset s.g t cid, store := s.store.set cid c', sup := sup', log := s.log } := by
  obtain ⟨hunt, hcng⟩ := hinv.unscanned p (List.mem_cons_self p rest) cid hold
  have hcidlt : cid < store0.length := wf_valid hwf hold
  have hcidlt' : cid < s.store.length := lt_of_lt_of_le hcidlt hinv.storeLen
  have htr : t.1 < w.size ∧ t.2 < w.size := by
    rcases ht with h | h
    · rw [h]; exact ⟨hp1, hp2⟩
    · exact ⟨h.1, h.2.1⟩
  have htvac : gget s.g t = none := by
    rcases ht with h | h
    · rw [h]; exact hnew
    · exact h.2.2.2
  have hgdims := hinv.gdims
  have hG : ∀ q, q ≠ t → gget (gset s.g t cid) q = gget s.g q :=
    fun q hq => gget_gset_ne s.g t q cid hq
  have hGt : gget (gset s.g t cid) t = some cid :=
    gget_gset_self s.g w.size t cid hgdims htr.1 htr.2
  have hS : ∀ i, i ≠ cid → storeGet (s.store.set cid c') i = storeGet s.store i :=
    fun i hi => storeGet_set_ne s.store cid i c' hi
  have hScid : storeGet (s.store.set cid c') cid = c' :=
    storeGet_set_self s.store cid c' hcidlt'
  refine ⟨?_, ?_, ?_, ?_, ?_, ?_, ?_, ?_, ?_, ?_, ?_, ?_, ?_, ?_, ?_⟩
  · -- storeLen
    rw [List.length_set]
    exact hinv.storeLen
  · -- speciesPres
    intro id hid
    rcases eq_or_ne id cid with h | h
    · subst h
      rw [hScid, hsp']
    · rw [hS id h]
      exact hinv.speciesPres id hid
  · -- untouched
    intro id hid hno
    have h : id ≠ cid := by
      intro h
      exact hno p (by rw [h]; exact hold)
    rw [hS id h]
    exact hinv.untouched id hid hno
  · -- gdims
    exact gdims_gset s.g w.size t cid hinv.gdims
  · -- gvalid
    intro q id hq
    rw [List.length_set]
    rcases eq_or_ne q t with h | h
    · subst h
      rw [hGt] at hq
      rw [← Option.some.inj hq]
      exact hcidlt'
    · rw [hG q h] at hq
      exact hinv.gvalid q id hq
  · -- ginj
    intro q q' id hq hq'
    rcases eq_or_ne q t with h | h <;> rcases eq_or_ne q' t with h' | h'
    · rw [h, h']
    · subst h
      rw [hGt] at hq
      rw [hG q' h'] at hq'
      rw [← Option.some.inj hq] at hq'
      exact absurd hq' (hcng q')
    · subst h'
      rw [hGt] at hq'
      rw [hG q h] at hq
      rw [← Option.some.inj hq'] at hq
      exact absurd hq (hcng q)
    · rw [hG q h] at hq
      rw [hG q' h'] at hq'
      exact hinv.ginj q q' id hq hq'
  · -- gsource
    intro q id hq
    rcases eq_or_ne q t with h | h
    · subst h
      rw [hGt] at hq
      rw [← Option.some.inj hq]
      exact Or.inr ⟨p, hold, hpnr⟩
    · rw [hG q h] at hq
      rcases hinv.gsource q id hq with h2 | ⟨r, hr1, hr2⟩
      · exact Or.inl h2
      · exact Or.inr ⟨r, hr1, fun hrr => hr2 (List.mem_cons_of_mem p hrr)⟩
  · -- unscanned
    intro q hqrest id hqid
    have hqp : q ≠ p := by
      intro h
      exact hpnr (h ▸ hqrest)
    obtain ⟨hu1, hu2⟩ := hinv.unscanned q (List.mem_cons_of_mem p hqrest) id hqid
    have hidc : id ≠ cid := by
      intro h
      subst h
      exact hqp (wf_inj hwf hqid hold)
    refine ⟨by rw [hS id hidc]; exact hu1, ?_⟩
    intro r
    rcases eq_or_ne r t with h | h
    · subst h
      rw [hGt]
      intro hcon
      exact hidc (Option.some.inj hcon).symm
    · rw [hG r h]
      exact hu2 r
  · -- unscannedOcc
    intro q hqrest id occ hqid hqocc
    have hqt : q ≠ t := by
      rcases ht with h | h
      · rw [h]
        intro hcon
        exact hpnr (hcon ▸ hqrest)
      · intro hcon
        rw [hcon, h.2.2.1] at hqid
        cases hqid
    rw [hG q hqt] at hqocc
    exact hinv.unscannedOcc q (List.mem_cons_of_mem p hqrest) id occ hqid hqocc
  · -- noViol
    exact hinv.noViol
  · -- eatFacts
    intro sh f spos fpos hev
    obtain ⟨e1, e2, e3, e4, e5, e6, e7, e8, e9⟩ := hinv.eatFacts sh f spos fpos hev
    have hshc : sh ≠ cid := by
      intro h
      subst h
      exact e6 (by rw [wf_inj hwf e1 hold]; exact List.mem_cons_self p rest)
    have hfc : f ≠ cid := by
      intro h
      subst h
      rw [wf_inj hwf e3 hold] at e8
      exact e8 hnew
    refine ⟨e1, e2, e3, e4, by rw [hS sh hshc]; exact e5,
      fun h => e6 (List.mem_cons_of_mem p h), e7, ?_, ?_⟩
    · rcases eq_or_ne fpos t with h | h
      · rw [h, hGt]
        simp
      · rw [hG fpos h]
        exact e8
    · intro hkey r
      rcases eq_or_ne r t with h | h
      · subst h
        rw [hGt]
        intro hcon
        exact hfc (Option.some.inj hcon).symm
      · rw [hG r h]
        exact e9 hkey r
  · -- skipFacts
    intro q occ hev
    exact hinv.skipFacts q occ hev
  · -- breedFacts
    intro pid chid origin dest hev
    obtain ⟨b1, b2, b3, b4, b5, b6, b7, b8⟩ := hinv.breedFacts pid chid origin dest hev
    have hpidc : pid ≠ cid := by
      intro h
      subst h
      exact b8 (by rw [wf_inj hwf b7 hold]; exact List.mem_cons_self p rest)
    have hchc : chid ≠ cid := by
      intro h
      omega
    have hto : t ≠ origin := by
      intro h
      rw [h, b3] at htvac
      cases htvac
    have htd : t ≠ dest := by
      intro h
      rw [h, b4] at htvac
      cases htvac
    refine ⟨by rw [hS pid hpidc]; exact b1, by rw [hS chid hchc]; exact b2,
      by rw [hG origin (Ne.symm hto)]; exact b3,
      by rw [hG dest (Ne.symm htd)]; exact b4,
      b5, by rw [List.length_set]; exact b6, b7,
      fun h => b8 (List.mem_cons_of_mem p h)⟩
  · -- weakShark
    intro q id hqid hsp hE
    have hidc : id ≠ cid := by
      intro h
      subst h
      exact hnotweak hsp hE
    obtain ⟨w1, w2⟩ := hinv.weakShark q id hqid hsp hE
    refine ⟨?_, ?_⟩
    · intro r
      rcases eq_or_ne r t with h | h
      · subst h
        rw [hGt]
        intro hcon
        exact hidc (Option.some.inj hcon).symm
      · rw [hG r h]
        exact w1 r
    · intro hqnr
      have hqnpr : q ∉ p :: rest := by
        intro hmem
        rcases List.mem_cons.mp hmem with h | h
        · subst h
          rw [hold] at hqid
          exact hidc (Option.some.inj hqid).symm
        · exact hqnr h
      rw [hS id hidc]
      exact w2 hqnpr
  · -- sharkAlive
    intro hstv q id hq hsp
    rcases eq_or_ne q t with h | h
    · subst h
      rw [hGt] at hq
      rw [← Option.some.inj hq] at hsp ⊢
      rw [hScid] at hsp ⊢
      exact halive hstv hsp
    · rw [hG q h] at hq
      have hidc : id ≠ cid := by
        intro hcon
        exact hcng q (hcon ▸ hq)
      rw [hS id hidc] at hsp ⊢
      exact hinv.sharkAlive hstv q id hq hsp

/-! ### Invariant preservation: predation without breeding

The scanned shark `cid` moves onto the cell `t` that holds the fish
`f` in the old grid, its record ending as `c'` (energy reset to the
starvation threshold); an `eat` event is recorded. -/

lemma inv_eat (w : World) (store0 : Store) (rest : List (Nat × Nat)) (p t : Nat × Nat)
    (s : SimState) (cid f : Nat) (c' : Creature) (sup' : List Nat)
    (hwf : WF w store0)
    (hinv : Inv w store0 (p :: rest) s)
    (hold : gget w.grid p = some cid)
    (hnew : gget s.g p = none)
    (hp1 : p.1 < w.size) (hp2 : p.2 < w.size)
    (hpnr : p ∉ rest)
    (htf : gget w.grid t = some f)
    (hffish : (storeGet store0 f).species = Species.fish)
    (htvac : gget s.g t = none)
    (htr : t.1 < w.size ∧ t.2 < w.size)
    (hsh0 : (storeGet store0 cid).species = Species.shark)
    (hsp' : c'.species = (storeGet store0 cid).species)
    (hE' : c'.Energy = w.starve)
    (hnotweak : ¬ (storeGet store0 cid).Energy ≤ 1)
    (hkey_rest : ∀ q : Nat × Nat, q.1 < w.size → q.2 < w.size →
      scanKey w.size p < scanKey w.size q → q ∈ rest) :
    Inv w store0 rest
      { g := gset s.g t cid, store := s.store.set cid c', sup := sup',
        log := Event.eat cid f p t :: s.log } := by
  obtain ⟨hunt, hcng⟩ := hinv.unscanned p (List.mem_cons_self p rest) cid hold
  have hcidlt : cid < store0.length := wf_valid hwf hold
  have hcidlt' : cid < s.store.length := lt_of_lt_of_le hcidlt hinv.storeLen
  have hfcid : f ≠ cid := by
    intro h
    rw [h] at hffish
    rw [hffish] at hsh0
    cases hsh0
  have htp : t ≠ p := by
    intro h
    rw [h, hold] at htf
    exact hfcid (Option.some.inj htf).symm
  have hgdims := hinv.gdims
  have hG : ∀ q, q ≠ t → gget (gset s.g t cid) q = gget s.g q :=
    fun q hq => gget_gset_ne s.g t q cid hq
  have hGt : gget (gset s.g t cid) t = some cid :=
    gget_gset_self s.g w.size t cid hgdims htr.1 htr.2
  have hS : ∀ i, i ≠ cid → storeGet (s.store.set cid c') i = storeGet s.store i :=
    fun i hi => storeGet_set_ne s.store cid i c' hi
  have hScid : storeGet (s.store.set cid c') cid = c' :=
    storeGet_set_self s.store cid c' hcidlt'
  refine ⟨?_, ?_, ?_, ?_, ?_, ?_, ?_, ?_, ?_, ?_, ?_, ?_, ?_, ?_, ?_⟩
  · rw [List.length_set]
    exact hinv.storeLen
  · intro id hid
    rcases eq_or_ne id cid with h | h
    · subst h
      rw [hScid, hsp']
    · rw [hS id h]
      exact hinv.speciesPres id hid
  · intro id hid hno
    have h : id ≠ cid := by
      intro h
      exact hno p (by rw [h]; exact hold)
    rw [hS id h]
    exact hinv.untouched id hid hno
  · exact gdims_gset s.g w.size t cid hinv.gdims
  · intro q id hq
    rw [List.length_set]
    rcases eq_or_ne q t with h | h
    · subst h
      rw [hGt] at hq
      rw [← Option.some.inj hq]
      exact hcidlt'
    · rw [hG q h] at hq
      exact hinv.gvalid q id hq
  · intro q q' id hq hq'
    rcases eq_or_ne q t with h | h <;> rcases eq_or_ne q' t with h' | h'
    · rw [h, h']
    · subst h
      rw [hGt] at hq
      rw [hG q' h'] at hq'
      rw [← Option.some.inj hq] at hq'
      exact absurd hq' (hcng q')
    · subst h'
      rw [hGt] at hq'
      rw [hG q h] at hq
      rw [← Option.some.inj hq'] at hq
      exact absurd hq (hcng q)
    · rw [hG q h] at hq
      rw [hG q' h'] at hq'
      exact hinv.ginj q q' id hq hq'
  · intro q id hq
    rcases eq_or_ne q t with h | h
    · subst h
      rw [hGt] at hq
      rw [← Option.some.inj hq]
      exact Or.inr ⟨p, hold, hpnr⟩
    · rw [hG q h] at hq
      rcases hinv.gsource q id hq with h2 | ⟨r, hr1, hr2⟩
      · exact Or.inl h2
      · exact Or.inr ⟨r, hr1, fun hrr => hr2 (List.mem_cons_of_mem p hrr)⟩
  · intro q hqrest id hqid
    have hqp : q ≠ p := by
      intro h
      exact hpnr (h ▸ hqrest)
    obtain ⟨hu1, hu2⟩ := hinv.unscanned q (List.mem_cons_of_mem p hqrest) id hqid
    have hidc : id ≠ cid := by
      intro h
      subst h
      exact hqp (wf_inj hwf hqid hold)
    refine ⟨by rw [hS id hidc]; exact hu1, ?_⟩
    intro r
    rcases eq_or_ne r t with h | h
    · subst h
      rw [hGt]
      intro hcon
      exact hidc (Option.some.inj hcon).symm
    · rw [hG r h]
      exact hu2 r
  · -- unscannedOcc: the eaten fish's cell may newly be occupied
    intro q hqrest id occ hqid hqocc
    rcases eq_or_ne q t with h | h
    · subst h
      rw [htf] at hqid
      rw [← Option.some.inj hqid]
      rw [hGt] at hqocc
      refine ⟨hffish, p, ?_⟩
      rw [← Option.some.inj hqocc]
      exact List.mem_cons_self _ _
    · rw [hG q h] at hqocc
      obtain ⟨ho1, spos, ho2⟩ :=
        hinv.unscannedOcc q (List.mem_cons_of_mem p hqrest) id occ hqid hqocc
      exact ⟨ho1, spos, List.mem_cons_of_mem _ ho2⟩
  · intro q
    intro hmem
    rcases List.mem_cons.mp hmem with h | h
    · cases h
    · exact hinv.noViol q h
  · -- eatFacts: one new event, old ones preserved
    intro sh fo spos fpos hev
    rcases List.mem_cons.mp hev with h | h
    · -- the new event
      injection h with h1 h2 h3 h4
      rw [h1, h2, h3, h4]
      refine ⟨hold, hsh0, htf, hffish, by rw [hScid]; exact hE', hpnr,
        Ne.symm hfcid, by rw [hGt]; simp, ?_⟩
      intro hkey r
      have htrest : t ∈ rest := hkey_rest t htr.1 htr.2 hkey
      obtain ⟨-, hu2⟩ := hinv.unscanned t (List.mem_cons_of_mem p htrest) f htf
      rcases eq_or_ne r t with h | h
      · subst h
        rw [hGt]
        intro hcon
        exact hfcid (Option.some.inj hcon).symm
      · rw [hG r h]
        exact hu2 r
    · obtain ⟨e1, e2, e3, e4, e5, e6, e7, e8, e9⟩ := hinv.eatFacts sh fo spos fpos h
      have hshc : sh ≠ cid := by
        intro hc
        subst hc
        exact e6 (by rw [wf_inj hwf e1 hold]; exact List.mem_cons_self p rest)
      have hfc : fo ≠ cid := by
        intro hc
        subst hc
        rw [wf_inj hwf e3 hold] at e8
        exact e8 hnew
      refine ⟨e1, e2, e3, e4, by rw [hS sh hshc]; exact e5,
        fun hx => e6 (List.mem_cons_of_mem p hx), e7, ?_, ?_⟩
      · rcases eq_or_ne fpos t with hx | hx
        · rw [hx, hGt]
          simp
        · rw [hG fpos hx]
          exact e8
      · intro hkey r
        rcases eq_or_ne r t with hx | hx
        · subst hx
          rw [hGt]
          intro hcon
          exact hfc (Option.some.inj hcon).symm
        · rw [hG r hx]
          exact e9 hkey r
  · intro q occ hev
    rcases List.mem_cons.mp hev with h | h
    · cases h
    · obtain ⟨fid, spos, f1, f2, f3⟩ := hinv.skipFacts q occ h
      exact ⟨fid, spos, f1, f2, List.mem_cons_of_mem _ f3⟩
  · intro pid chid origin dest hev
    rcases List.mem_cons.mp hev with h | h
    · cases h
    · obtain ⟨b1, b2, b3, b4, b5, b6, b7, b8⟩ := hinv.breedFacts pid chid origin dest h
      have hpidc : pid ≠ cid := by
        intro hc
        subst hc
        exact b8 (by rw [wf_inj hwf b7 hold]; exact List.mem_cons_self p rest)
      have hchc : chid ≠ cid := by
        intro hc
        omega
      have hto : t ≠ origin := by
        intro hc
        rw [hc, b3] at htvac
        cases htvac
      have htd : t ≠ dest := by
        intro hc
        rw [hc, b4] at htvac
        cases htvac
      refine ⟨by rw [hS pid hpidc]; exact b1, by rw [hS chid hchc]; exact b2,
        by rw [hG origin (Ne.symm hto)]; exact b3,
        by rw [hG dest (Ne.symm htd)]; exact b4,
        b5, by rw [List.length_set]; exact b6, b7,
        fun hx => b8 (List.mem_cons_of_mem p hx)⟩
  · intro q id hqid hsp hE
    have hidc : id ≠ cid := by
      intro h
      subst h
      exact hnotweak hE
    obtain ⟨w1, w2⟩ := hinv.weakShark q id hqid hsp hE
    refine ⟨?_, ?_⟩
    · intro r
      rcases eq_or_ne r t with h | h
      · subst h
        rw [hGt]
        intro hcon
        exact hidc (Option.some.inj hcon).symm
      · rw [hG r h]
        exact w1 r
    · intro hqnr
      have hqnpr : q ∉ p :: rest := by
        intro hmem
        rcases List.mem_cons.mp hmem with h | h
        · subst h
          rw [hold] at hqid
          exact hidc (Option.some.inj hqid).symm
        · exact hqnr h
      rw [hS id hidc]
      exact w2 hqnpr
  · intro hstv q id hq hsp
    rcases eq_or_ne q t with h | h
    · subst h
      rw [hGt] at hq
      rw [← Option.some.inj hq] at hsp ⊢
      rw [hScid] at hsp ⊢
      rw [hE']
      exact hstv
    · rw [hG q h] at hq
      have hidc : id ≠ cid := by
        intro hcon
        exact hcng q (hcon ▸ hq)
      rw [hS id hidc] at hsp ⊢
      exact hinv.sharkAlive hstv q id hq hsp

/-! ### Invariant preservation: shark starvation

The scanned shark's record is updated in place (`Age++`,
`LastBreed++`, `Energy--`) and the shark is not placed anywhere. -/

lemma inv_noplace (w : World) (store0 : Store) (rest : List (Nat × Nat)) (p : Nat × Nat)
    (s : SimState) (cid : Nat) (c' : Creature)
    (hwf : WF w store0)
    (hinv : Inv w store0 (p :: rest) s)
    (hold : gget w.grid p = some cid)
    (hnew : gget s.g p = none)
    (hpnr : p ∉ rest)
    (hsp' : c'.species = (storeGet store0 cid).species)
    (hdead : (storeGet store0 cid).species = Species.shark →
      (storeGet store0 cid).Energy ≤ 1 → c' = deadUpdate (storeGet store0 cid)) :
    Inv w store0 rest
      { s with store := s.store.set cid c' } := by
  obtain ⟨hunt, hcng⟩ := hinv.unscanned p (List.mem_cons_self p rest) cid hold
  have hcidlt : cid < store0.length := wf_valid hwf hold
  have hcidlt' : cid < s.store.length := lt_of_lt_of_le hcidlt hinv.storeLen
  have hS : ∀ i, i ≠ cid →
      storeGet (s.store.set cid c') i = storeGet s.store i :=
    fun i hi => storeGet_set_ne s.store cid i _ hi
  have hScid : storeGet (s.store.set cid c') cid = c' :=
    storeGet_set_self s.store cid _ hcidlt'
  refine ⟨?_, ?_, ?_, hinv.gdims, ?_, hinv.ginj, ?_, ?_, ?_, hinv.noViol, ?_, hinv.skipFacts,
    ?_, ?_, ?_⟩
  · rw [List.length_set]
    exact hinv.storeLen
  · intro id hid
    rcases eq_or_ne id cid with h | h
    · subst h
      rw [hScid, hsp']
    · rw [hS id h]
      exact hinv.speciesPres id hid
  · intro id hid hno
    have h : id ≠ cid := by
      intro h
      exact hno p (by rw [h]; exact hold)
    rw [hS id h]
    exact hinv.untouched id hid hno
  · intro q id hq
    rw [List.length_set]
    exact hinv.gvalid q id hq
  · intro q id hq
    rcases hinv.gsource q id hq with h2 | ⟨r, hr1, hr2⟩
    · exact Or.inl h2
    · exact Or.inr ⟨r, hr1, fun hrr => hr2 (List.mem_cons_of_mem p hrr)⟩
  · intro q hqrest id hqid
    have hqp : q ≠ p := by
      intro h
      exact hpnr (h ▸ hqrest)
    obtain ⟨hu1, hu2⟩ := hinv.unscanned q (List.mem_cons_of_mem p hqrest) id hqid
    have hidc : id ≠ cid := by
      intro h
      subst h
      exact hqp (wf_inj hwf hqid hold)
    exact ⟨by rw [hS id hidc]; exact hu1, hu2⟩
  · intro q hqrest id occ hqid hqocc
    exact hinv.unscannedOcc q (List.mem_cons_of_mem p hqrest) id occ hqid hqocc
  · intro sh f spos fpos hev
    obtain ⟨e1, e2, e3, e4, e5, e6, e7, e8, e9⟩ := hinv.eatFacts sh f spos fpos hev
    have hshc : sh ≠ cid := by
      intro hc
      subst hc
      exact e6 (by rw [wf_inj hwf e1 hold]; exact List.mem_cons_self p rest)
    exact ⟨e1, e2, e3, e4, by rw [hS sh hshc]; exact e5,
      fun hx => e6 (List.mem_cons_of_mem p hx), e7, e8, e9⟩
  · intro pid chid origin dest hev
    obtain ⟨b1, b2, b3, b4, b5, b6, b7, b8⟩ := hinv.breedFacts pid chid origin dest hev
    have hpidc : pid ≠ cid := by
      intro hc
      subst hc
      exact b8 (by rw [wf_inj hwf b7 hold]; exact List.mem_cons_self p rest)
    have hchc : chid ≠ cid := by
      intro hc
      omega
    exact ⟨by rw [hS pid hpidc]; exact b1, by rw [hS chid hchc]; exact b2, b3, b4,
      b5, by rw [List.length_set]; exact b6, b7,
      fun hx => b8 (List.mem_cons_of_mem p hx)⟩
  · intro q id hqid hsp hE
    obtain ⟨w1, w2⟩ := hinv.weakShark q id hqid hsp hE
    refine ⟨w1, ?_⟩
    intro hqnr
    rcases eq_or_ne id cid with h | h
    · subst h
      rw [hScid]
      exact hdead hsp hE
    · have hqnpr : q ∉ p :: rest := by
        intro hmem
        rcases List.mem_cons.mp hmem with hx | hx
        · subst hx
          rw [hold] at hqid
          exact h (Option.some.inj hqid).symm
        · exact hqnr hx
      rw [hS id h]
      exact w2 hqnpr
  · intro hstv q id hq hsp
    have hidc : id ≠ cid := by
      intro hcon
      exact hcng q (hcon ▸ hq)
    rw [hS id hidc] at hsp ⊢
    exact hinv.sharkAlive hstv q id hq hsp

/-! ### Invariant preservation: adding the child of a reproduction

Applied on top of the parent's placement (`inv_place` / `inv_eat`):
the freshly created child record `cc` is appended to the store and
placed at the parent's origin cell `p`; a `breed` event is recorded. -/

lemma inv_child (w : World) (store0 : Store) (rest : List (Nat × Nat)) (p dest : Nat × Nat)
    (s' : SimState) (cid chid : Nat) (cc : Creature)
    (hwf : WF w store0)
    (hinv : Inv w store0 rest s')
    (hchid : chid = s'.store.length)
    (hold : gget w.grid p = some cid)
    (hp1 : p.1 < w.size) (hp2 : p.2 < w.size)
    (hpnr : p ∉ rest)
    (hvacp : gget s'.g p = none)
    (hdest : gget s'.g dest = some cid)
    (hplb : (storeGet s'.store cid).LastBreed = 0)
    (_hccsp : cc.species = (storeGet store0 cid).species)
    (hcclb : cc.LastBreed = 0)
    (hccE : 1 ≤ w.starve → cc.species = Species.shark → 1 ≤ cc.Energy) :
    Inv w store0 rest
      { g := gset s'.g p chid, store := s'.store ++ [cc], sup := s'.sup,
        log := Event.breed cid chid p dest :: s'.log } := by
  have hcidlt : cid < store0.length := wf_valid hwf hold
  have hlen0 : store0.length ≤ s'.store.length := hinv.storeLen
  have hgdims := hinv.gdims
  have hG : ∀ q, q ≠ p → gget (gset s'.g p chid) q = gget s'.g q :=
    fun q hq => gget_gset_ne s'.g p q chid hq
  have hGp : gget (gset s'.g p chid) p = some chid :=
    gget_gset_self s'.g w.size p chid hgdims hp1 hp2
  have hchng : ∀ r, gget s'.g r ≠ some chid := by
    intro r hcon
    have := hinv.gvalid r chid hcon
    omega
  have hS : ∀ i, i < s'.store.length →
      storeGet (s'.store ++ [cc]) i = storeGet s'.store i :=
    fun i hi => storeGet_append_lt s'.store [cc] i hi
  have hSch : storeGet (s'.store ++ [cc]) chid = cc := by
    rw [hchid]
    exact storeGet_append_self s'.store cc
  have hSlt : ∀ i id, gget s'.g i = some id → storeGet (s'.store ++ [cc]) id = storeGet s'.store id :=
    fun i id hi => hS id (hinv.gvalid i id hi)
  refine ⟨?_, ?_, ?_, ?_, ?_, ?_, ?_, ?_, ?_, ?_, ?_, ?_, ?_, ?_, ?_⟩
  · rw [List.length_append]
    omega
  · intro id hid
    rw [hS id (by omega)]
    exact hinv.speciesPres id hid
  · intro id hid hno
    rw [hS id (by omega)]
    exact hinv.untouched id hid hno
  · exact gdims_gset s'.g w.size p chid hinv.gdims
  · intro q id hq
    rw [List.length_append]
    simp only [List.length_cons, List.length_nil]
    rcases eq_or_ne q p with h | h
    · subst h
      rw [hGp] at hq
      have := Option.some.inj hq
      omega
    · rw [hG q h] at hq
      have := hinv.gvalid q id hq
      omega
  · intro q q' id hq hq'
    rcases eq_or_ne q p with h | h <;> rcases eq_or_ne q' p with h' | h'
    · rw [h, h']
    · subst h
      rw [hGp] at hq
      rw [hG q' h'] at hq'
      rw [← Option.some.inj hq] at hq'
      exact absurd hq' (hchng q')
    · subst h'
      rw [hGp] at hq'
      rw [hG q h] at hq
      rw [← Option.some.inj hq'] at hq
      exact absurd hq (hchng q)
    · rw [hG q h] at hq
      rw [hG q' h'] at hq'
      exact hinv.ginj q q' id hq hq'
  · intro q id hq
    rcases eq_or_ne q p with h | h
    · subst h
      rw [hGp] at hq
      rw [← Option.some.inj hq]
      exact Or.inl (by omega)
    · rw [hG q h] at hq
      exact hinv.gsource q id hq
  · intro q hqrest id hqid
    obtain ⟨hu1, hu2⟩ := hinv.unscanned q hqrest id hqid
    have hidlt : id < store0.length := wf_valid hwf hqid
    refine ⟨by rw [hS id (by omega)]; exact hu1, ?_⟩
    intro r
    rcases eq_or_ne r p with h | h
    · subst h
      rw [hGp]
      intro hcon
      have := Option.some.inj hcon
      omega
    · rw [hG r h]
      exact hu2 r
  · intro q hqrest id occ hqid hqocc
    have hqp : q ≠ p := by
      intro h
      exact hpnr (h ▸ hqrest)
    rw [hG q hqp] at hqocc
    obtain ⟨ho1, spos, ho2⟩ := hinv.unscannedOcc q hqrest id occ hqid hqocc
    exact ⟨ho1, spos, List.mem_cons_of_mem _ ho2⟩
  · intro q hmem
    rcases List.mem_cons.mp hmem with h | h
    · cases h
    · exact hinv.noViol q h
  · intro sh f spos fpos hev
    rcases List.mem_cons.mp hev with h | h
    · cases h
    · obtain ⟨e1, e2, e3, e4, e5, e6, e7, e8, e9⟩ := hinv.eatFacts sh f spos fpos h
      have hshlt : sh < store0.length := wf_valid hwf e1
      have hflt : f < store0.length := wf_valid hwf e3
      refine ⟨e1, e2, e3, e4, by rw [hS sh (by omega)]; exact e5, e6, e7, ?_, ?_⟩
      · rcases eq_or_ne fpos p with hx | hx
        · rw [hx, hGp]
          simp
        · rw [hG fpos hx]
          exact e8
      · intro hkey r
        rcases eq_or_ne r p with hx | hx
        · subst hx
          rw [hGp]
          intro hcon
          have := Option.some.inj hcon
          omega
        · rw [hG r hx]
          exact e9 hkey r
  · intro q occ hev
    rcases List.mem_cons.mp hev with h | h
    · cases h
    · obtain ⟨fid, spos, f1, f2, f3⟩ := hinv.skipFacts q occ h
      exact ⟨fid, spos, f1, f2, List.mem_cons_of_mem _ f3⟩
  · intro pid chid' origin dest' hev
    rcases List.mem_cons.mp hev with h | h
    · injection h with h1 h2 h3 h4
      rw [h1, h2, h3, h4]
      refine ⟨by rw [hS cid (by omega)]; exact hplb, by rw [hSch]; exact hcclb,
        hGp, ?_, by omega, ?_, hold, hpnr⟩
      · have hdp : dest ≠ p := by
          intro hc
          rw [hc, hvacp] at hdest
          cases hdest
        rw [hG dest hdp]
        exact hdest
      · rw [List.length_append]
        simp only [List.length_cons, List.length_nil]
        omega
    · obtain ⟨b1, b2, b3, b4, b5, b6, b7, b8⟩ := hinv.breedFacts pid chid' origin dest' h
      have hpidlt : pid < store0.length := wf_valid hwf b7
      have horigp : origin ≠ p := by
        intro hc
        rw [hc, hvacp] at b3
        cases b3
      have hdestp : dest' ≠ p := by
        intro hc
        rw [hc, hvacp] at b4
        cases b4
      refine ⟨by rw [hS pid (by omega)]; exact b1, by rw [hS chid' b6]; exact b2,
        by rw [hG origin horigp]; exact b3, by rw [hG dest' hdestp]; exact b4,
        b5, ?_, b7, b8⟩
      rw [List.length_append]
      simp only [List.length_cons, List.length_nil]
      omega
  · intro q id hqid hsp hE
    obtain ⟨w1, w2⟩ := hinv.weakShark q id hqid hsp hE
    have hidlt : id < store0.length := wf_valid hwf hqid
    refine ⟨?_, ?_⟩
    · intro r
      rcases eq_or_ne r p with h | h
      · subst h
        rw [hGp]
        intro hcon
        have := Option.some.inj hcon
        omega
      · rw [hG r h]
        exact w1 r
    · intro hqnr
      rw [hS id (by omega)]
      exact w2 hqnr
  · intro hstv q id hq hsp
    rcases eq_or_ne q p with h | h
    · subst h
      rw [hGp] at hq
      rw [← Option.some.inj hq] at hsp ⊢
      rw [hSch] at hsp ⊢
      exact hccE hstv hsp
    · rw [hG q h] at hq
      rw [hSlt q id hq] at hsp ⊢
      exact hinv.sharkAlive hstv q id hq hsp

/-! ### Small helpers for the master step lemma -/

lemma draw_fst_lt (sup : List Nat) (n : Nat) (h : n ≠ 0) : (draw sup n).1 < n := by
  cases sup with
  | nil => exact Nat.mod_lt _ (Nat.pos_of_ne_zero h)
  | cons k r => exact Nat.mod_lt _ (Nat.pos_of_ne_zero h)

lemma gset_comm (g : Grid) (p q : Nat × Nat) (a b : Nat) (h : p ≠ q) :
    gset (gset g p a) q b = gset (gset g q b) p a := by
  unfold gset
  rcases eq_or_ne p.1 q.1 with h1 | h1
  · have h2 : p.2 ≠ q.2 := fun h2 => h (Prod.ext_iff.mpr ⟨h1, h2⟩)
    rcases Nat.lt_or_ge p.1 g.length with h3 | h3
    · rw [← h1, List.set_set, List.set_set,
        getD_set_self _ _ _ _ h3, getD_set_self _ _ _ _ h3,
        List.set_comm _ _ _ h2]
    · rw [← h1]
      have hg : ∀ col : List (Option Nat), g.set p.1 col = g :=
        fun col => List.set_eq_of_length_le h3
      simp only [hg]
  · rw [getD_set_ne _ _ _ _ _ h1, getD_set_ne _ _ _ _ _ (Ne.symm h1),
      List.set_comm _ _ _ (fun hc => h1 hc)]

lemma emptyCellsOf_mem (w : World) (g : Grid) (x y : Nat) (q : Nat × Nat)
    (hq : q ∈ emptyCellsOf w g x y) :
    q ∈ adjacentN x y w.size ∧ gget w.grid q = none ∧ gget g q = none := by
  unfold emptyCellsOf at hq
  obtain ⟨h1, h2⟩ := List.mem_filter.mp hq
  rw [Bool.and_eq_true] at h2
  exact ⟨h1, Option.isNone_iff_eq_none.mp h2.1, Option.isNone_iff_eq_none.mp h2.2⟩

lemma fishCellsOf_mem (w : World) (st : Store) (g : Grid) (x y : Nat) (q : Nat × Nat)
    (hq : q ∈ fishCellsOf w st g x y) :
    q ∈ adjacentN x y w.size ∧ ∃ fid, gget w.grid q = some fid ∧
      (storeGet st fid).species = Species.fish ∧ gget g q = none := by
  unfold fishCellsOf at hq
  obtain ⟨h1, h2⟩ := List.mem_filter.mp hq
  cases hgg : gget w.grid q with
  | none =>
    rw [hgg] at h2
    cases h2
  | some fid =>
    rw [hgg] at h2
    have h2' : (decide ((storeGet st fid).species = Species.fish)
        && (gget g q).isNone) = true := h2
    rw [Bool.and_eq_true] at h2'
    exact ⟨h1, fid, rfl, of_decide_eq_true h2'.1,
      Option.isNone_iff_eq_none.mp h2'.2⟩

/-! ### Invariant preservation: empty cell and skip -/

lemma inv_mono (w : World) (store0 : Store) (rest : List (Nat × Nat)) (p : Nat × Nat)
    (s : SimState)
    (hinv : Inv w store0 (p :: rest) s)
    (hold : gget w.grid p = none)
    (hpnr : p ∉ rest) :
    Inv w store0 rest s := by
  refine ⟨hinv.storeLen, hinv.speciesPres, hinv.untouched, hinv.gdims, hinv.gvalid,
    hinv.ginj, ?_, ?_, ?_, hinv.noViol, ?_, hinv.skipFacts, ?_, ?_, hinv.sharkAlive⟩
  · intro q id hq
    rcases hinv.gsource q id hq with h2 | ⟨r, hr1, hr2⟩
    · exact Or.inl h2
    · exact Or.inr ⟨r, hr1, fun hrr => hr2 (List.mem_cons_of_mem p hrr)⟩
  · intro q hqrest id hqid
    exact hinv.unscanned q (List.mem_cons_of_mem p hqrest) id hqid
  · intro q hqrest id occ hqid hqocc
    exact hinv.unscannedOcc q (List.mem_cons_of_mem p hqrest) id occ hqid hqocc
  · intro sh f spos fpos hev
    obtain ⟨e1, e2, e3, e4, e5, e6, e7, e8, e9⟩ := hinv.eatFacts sh f spos fpos hev
    exact ⟨e1, e2, e3, e4, e5, fun hx => e6 (List.mem_cons_of_mem p hx), e7, e8, e9⟩
  · intro pid chid origin dest hev
    obtain ⟨b1, b2, b3, b4, b5, b6, b7, b8⟩ := hinv.breedFacts pid chid origin dest hev
    exact ⟨b1, b2, b3, b4, b5, b6, b7, fun hx => b8 (List.mem_cons_of_mem p hx)⟩
  · intro q id hqid hsp hE
    obtain ⟨w1, w2⟩ := hinv.weakShark q id hqid hsp hE
    refine ⟨w1, ?_⟩
    intro hqnr
    refine w2 ?_
    intro hmem
    rcases List.mem_cons.mp hmem with hx | hx
    · subst hx
      rw [hold] at hqid
      cases hqid
    · exact hqnr hx

lemma inv_skip (w : World) (store0 : Store) (rest : List (Nat × Nat)) (p : Nat × Nat)
    (s : SimState) (cid occ : Nat)
    (_hwf : WF w store0)
    (hinv : Inv w store0 (p :: rest) s)
    (hold : gget w.grid p = some cid)
    (hocc : gget s.g p = some occ)
    (hpnr : p ∉ rest) :
    Inv w store0 rest { s with log := Event.skipCell p occ :: s.log } := by
  obtain ⟨hfish, spos, hev⟩ :=
    hinv.unscannedOcc p (List.mem_cons_self p rest) cid occ hold hocc
  refine ⟨hinv.storeLen, hinv.speciesPres, hinv.untouched, hinv.gdims, hinv.gvalid,
    hinv.ginj, ?_, ?_, ?_, ?_, ?_, ?_, ?_, ?_, hinv.sharkAlive⟩
  · intro q id hq
    rcases hinv.gsource q id hq with h2 | ⟨r, hr1, hr2⟩
    · exact Or.inl h2
    · exact Or.inr ⟨r, hr1, fun hrr => hr2 (List.mem_cons_of_mem p hrr)⟩
  · intro q hqrest id hqid
    exact hinv.unscanned q (List.mem_cons_of_mem p hqrest) id hqid
  · intro q hqrest id occ' hqid hqocc
    obtain ⟨ho1, spos', ho2⟩ :=
      hinv.unscannedOcc q (List.mem_cons_of_mem p hqrest) id occ' hqid hqocc
    exact ⟨ho1, spos', List.mem_cons_of_mem _ ho2⟩
  · intro q hmem
    rcases List.mem_cons.mp hmem with hx | hx
    · cases hx
    · exact hinv.noViol q hx
  · intro sh f spos' fpos hev'
    rcases List.mem_cons.mp hev' with hx | hx
    · cases hx
    · obtain ⟨e1, e2, e3, e4, e5, e6, e7, e8, e9⟩ := hinv.eatFacts sh f spos' fpos hx
      exact ⟨e1, e2, e3, e4, e5, fun hy => e6 (List.mem_cons_of_mem p hy), e7, e8, e9⟩
  · intro q occ' hev'
    rcases List.mem_cons.mp hev' with hx | hx
    · injection hx with hx1 hx2
      rw [hx1, hx2]
      exact ⟨cid, spos, hold, hfish, List.mem_cons_of_mem _ hev⟩
    · obtain ⟨fid, spos', f1, f2, f3⟩ := hinv.skipFacts q occ' hx
      exact ⟨fid, spos', f1, f2, List.mem_cons_of_mem _ f3⟩
  · intro pid chid origin dest hev'
    rcases List.mem_cons.mp hev' with hx | hx
    · cases hx
    · obtain ⟨b1, b2, b3, b4, b5, b6, b7, b8⟩ := hinv.breedFacts pid chid origin dest hx
      exact ⟨b1, b2, b3, b4, b5, b6, b7, fun hy => b8 (List.mem_cons_of_mem p hy)⟩
  · intro q id hqid hsp hE
    obtain ⟨w1, w2⟩ := hinv.weakShark q id hqid hsp hE
    refine ⟨w1, ?_⟩
    intro hqnr
    refine w2 ?_
    intro hmem
    rcases List.mem_cons.mp hmem with hx | hx
    · subst hx
      rw [hold] at hqid
      have : id = cid := (Option.some.inj hqid).symm
      subst this
      rw [hfish] at hsp
      cases hsp
    · exact hqnr hx

/-! ### The master step lemma: one cell of the scan preserves `Inv` -/

lemma stepCell_inv (w : World) (store0 : Store) (done rest : List (Nat × Nat))
    (p : Nat × Nat) (s : SimState)
    (hwf : WF w store0)
    (hsplit : scanOrder w.size = done ++ p :: rest)
    (hinv : Inv w store0 (p :: rest) s) :
    Inv w store0 rest (stepCell w s p) := by
  obtain ⟨⟨hp1, hp2, hkeyp⟩, hrest, hdone⟩ := scanOrder_split w.size done rest p hsplit
  have hpnr : p ∉ rest := by
    intro hmem
    have := (hrest p hmem).2.2
    omega
  have hsize : 0 < w.size := by omega
  have hkey_rest : ∀ q : Nat × Nat, q.1 < w.size → q.2 < w.size →
      scanKey w.size p < scanKey w.size q → q ∈ rest := by
    intro q hq1 hq2 hkq
    unfold scanKey at hkq
    have hqmem : q ∈ scanOrder w.size := (mem_scanOrder _ q).mpr ⟨hq1, hq2⟩
    rw [hsplit] at hqmem
    rcases List.mem_append.mp hqmem with hx | hx
    · have := hdone q hx
      omega
    · rcases List.mem_cons.mp hx with hx | hx
      · subst hx
        omega
      · exact hx
  cases hold : gget w.grid p with
  | none =>
    rw [stepCell_none hold]
    exact inv_mono w store0 rest p s hinv hold hpnr
  | some cid =>
    cases hocc : gget s.g p with
    | some occ =>
      rw [stepCell_skip hold hocc]
      exact inv_skip w store0 rest p s cid occ hwf hinv hold hocc hpnr
    | none =>
      obtain ⟨hunt, hcng⟩ := hinv.unscanned p (List.mem_cons_self p rest) cid hold
      have hcidlt : cid < store0.length := wf_valid hwf hold
      have hcidlt' : cid < s.store.length := lt_of_lt_of_le hcidlt hinv.storeLen
      cases hspec : (storeGet s.store cid).species with
      | empty =>
        rw [stepCell_proc_empty hold hocc hspec]
        refine inv_noplace w store0 rest p s cid (incr (storeGet s.store cid))
          hwf hinv hold hocc hpnr (by rw [← hunt]; rfl) ?_
        intro hsh _
        rw [← hunt, hspec] at hsh
        exact absurd hsh (by decide)
      | fish =>
        rw [stepCell_proc_fish hold hocc hspec]
        set s1 : SimState := { g := s.g, store := s.store.set cid (incr (storeGet s.store cid)), sup := s.sup, log := s.log } with hs1def
        have hs1cid : storeGet s1.store cid = incr (storeGet s.store cid) :=
          storeGet_set_self s.store cid _ hcidlt'
        have hfish0 : (storeGet store0 cid).species = Species.fish := by
          rw [← hunt]
          exact hspec
        have haliveF : ∀ c : Creature, c.species = (storeGet store0 cid).species →
            1 ≤ w.starve → c.species = Species.shark → 1 ≤ c.Energy := by
          intro c hcs _ hsh
          rw [hcs, hfish0] at hsh
          exact absurd hsh (by decide)
        have hnwF : (storeGet store0 cid).species = Species.shark →
            ¬ (storeGet store0 cid).Energy ≤ 1 := by
          intro hsh
          rw [hfish0] at hsh
          exact absurd hsh (by decide)
        have hspF : ∀ c : Creature, c.species = (storeGet s.store cid).species →
            c.species = (storeGet store0 cid).species := by
          intro c hcs
          rw [hcs, hunt]
        by_cases hec : emptyCellsOf w s.g p.1 p.2 = []
        · rw [processFish_stay (s := s1) hec]
          show Inv w store0 rest { g := gset s.g p cid, store := s.store.set cid (incr (storeGet s.store cid)), sup := s.sup, log := violLog s.g p s.log }
          rw [violLog_vacant hocc]
          exact inv_place w store0 rest p p s cid (incr (storeGet s.store cid)) s.sup
            hwf hinv hold hocc hp1 hp2 hpnr (hspF _ rfl) (Or.inl rfl)
            (haliveF _ (hspF _ rfl)) hnwF
        · have hlen0 : (emptyCellsOf w s.g p.1 p.2).length ≠ 0 :=
            fun h0 => hec (List.eq_nil_of_length_eq_zero h0)
          set ec := emptyCellsOf w s.g p.1 p.2 with hecdef
          set np := ec.getD (draw s.sup ec.length).1 (p.1, p.2) with hnpdef
          have hlt : (draw s.sup ec.length).1 < ec.length := draw_fst_lt _ _ hlen0
          have hnpmem : np ∈ ec := getD_mem _ _ _ hlt
          obtain ⟨hadj, holdnp, hnewnp⟩ := emptyCellsOf_mem w s.g p.1 p.2 np hnpmem
          obtain ⟨hr1, hr2⟩ := adjacentN_lt p.1 p.2 w.size hsize hp1 hp2 np hadj
          have hnp_ne_p : np ≠ p := by
            intro hcon
            rw [hcon, hold] at holdnp
            cases holdnp
          by_cases hlb : (storeGet s1.store cid).LastBreed ≥ w.fishBreed
          · rw [processFish_breed (s := s1) hec hlb]
            show Inv w store0 rest { g := gset (gset s.g p s1.store.length) np cid, store := (s1.store ++ [(⟨Species.fish, 0, 0, 0⟩ : Creature)]).set cid (resetBreed (storeGet s1.store cid)), sup := (draw s.sup ec.length).2, log := Event.breed cid s1.store.length p np :: violLog (gset s.g p s1.store.length) np (violLog s.g p s.log) }
            have hlenA : s1.store.length = s.store.length := by
              show (s.store.set cid (incr (storeGet s.store cid))).length = s.store.length
              simp
            rw [hs1cid, hlenA, violLog_vacant hocc]
            have hg1np : gget (gset s.g p s.store.length) np = none := by
              rw [gget_gset_ne s.g p np _ hnp_ne_p]
              exact hnewnp
            rw [violLog_vacant hg1np, gset_comm s.g p np s.store.length cid (Ne.symm hnp_ne_p)]
            have hstoreEq : (s1.store ++ [(⟨Species.fish, 0, 0, 0⟩ : Creature)]).set cid (resetBreed (incr (storeGet s.store cid))) = (s.store.set cid (resetBreed (incr (storeGet s.store cid)))) ++ [(⟨Species.fish, 0, 0, 0⟩ : Creature)] := by
              show ((s.store.set cid (incr (storeGet s.store cid))) ++ [(⟨Species.fish, 0, 0, 0⟩ : Creature)]).set cid (resetBreed (incr (storeGet s.store cid))) = _
              rw [List.set_append_left _ _ (by rw [List.length_set]; exact hcidlt'), List.set_set]
            rw [hstoreEq]
            have hinv' := inv_place w store0 rest p np s cid
              (resetBreed (incr (storeGet s.store cid))) (draw s.sup ec.length).2
              hwf hinv hold hocc hp1 hp2 hpnr (hspF _ rfl)
              (Or.inr ⟨hr1, hr2, holdnp, hnewnp⟩) (haliveF _ (hspF _ rfl)) hnwF
            exact inv_child w store0 rest p np
              { g := gset s.g np cid, store := s.store.set cid (resetBreed (incr (storeGet s.store cid))), sup := (draw s.sup ec.length).2, log := s.log }
              cid s.store.length (⟨Species.fish, 0, 0, 0⟩ : Creature) hwf hinv'
              (by show s.store.length = (s.store.set cid (resetBreed (incr (storeGet s.store cid)))).length; rw [List.length_set])
              hold hp1 hp2 hpnr
              (by show gget (gset s.g np cid) p = none; rw [gget_gset_ne s.g np p cid (Ne.symm hnp_ne_p)]; exact hocc)
              (gget_gset_self s.g w.size np cid hinv.gdims hr1 hr2)
              (by show (storeGet (s.store.set cid (resetBreed (incr (storeGet s.store cid)))) cid).LastBreed = 0; rw [storeGet_set_self _ _ _ hcidlt']; rfl)
              (by rw [hfish0])
              rfl
              (fun _ hsh => absurd hsh (by decide))
          · rw [processFish_move (s := s1) hec hlb]
            show Inv w store0 rest { g := gset s.g np cid, store := s.store.set cid (incr (storeGet s.store cid)), sup := (draw s.sup ec.length).2, log := violLog s.g np s.log }
            rw [violLog_vacant hnewnp]
            exact inv_place w store0 rest p np s cid (incr (storeGet s.store cid))
              (draw s.sup ec.length).2 hwf hinv hold hocc hp1 hp2 hpnr (hspF _ rfl)
              (Or.inr ⟨hr1, hr2, holdnp, hnewnp⟩) (haliveF _ (hspF _ rfl)) hnwF
      | shark =>
        rw [stepCell_proc_shark hold hocc hspec]
        set s1 : SimState := { g := s.g, store := s.store.set cid (incr (storeGet s.store cid)), sup := s.sup, log := s.log } with hs1def
        have hs1cid : storeGet s1.store cid = incr (storeGet s.store cid) :=
          storeGet_set_self s.store cid _ hcidlt'
        have hshark0 : (storeGet store0 cid).species = Species.shark := by
          rw [← hunt]
          exact hspec
        have hspS : ∀ c : Creature, c.species = (storeGet s.store cid).species →
            c.species = (storeGet store0 cid).species := by
          intro c hcs
          rw [hcs, hunt]
        by_cases hdead : (decEnergy (storeGet s1.store cid)).Energy ≤ 0
        · rw [processShark_dead (s := s1) hdead]
          show Inv w store0 rest { g := s.g, store := s1.store.set cid (decEnergy (storeGet s1.store cid)), sup := s.sup, log := s.log }
          have hstoreD : s1.store.set cid (decEnergy (storeGet s1.store cid)) = s.store.set cid (deadUpdate (storeGet store0 cid)) := by
            rw [hs1cid]
            show (s.store.set cid (incr (storeGet s.store cid))).set cid _ = _
            rw [List.set_set, show decEnergy (incr (storeGet s.store cid)) = deadUpdate (storeGet s.store cid) from rfl, hunt]
          rw [hstoreD]
          exact inv_noplace w store0 rest p s cid (deadUpdate (storeGet store0 cid))
            hwf hinv hold hocc hpnr rfl (fun _ _ => rfl)
        · have hdead' : ¬ (storeGet s.store cid).Energy - 1 ≤ 0 := by
            rw [hs1cid] at hdead
            exact hdead
          have hnwS : (storeGet store0 cid).species = Species.shark →
              ¬ (storeGet store0 cid).Energy ≤ 1 := by
            intro _
            rw [← hunt]
            intro hcon
            exact hdead' (by omega)
          have haliveS : ∀ c : Creature, c.Energy = (storeGet s.store cid).Energy - 1 →
              1 ≤ w.starve → c.species = Species.shark → 1 ≤ c.Energy := by
            intro c hce _ _
            rw [hce]
            omega
          set st1 := s1.store.set cid (decEnergy (storeGet s1.store cid)) with hst1def
          have hst1eq : st1 = s.store.set cid (decEnergy (incr (storeGet s.store cid))) := by
            rw [hst1def, hs1cid]
            show (s.store.set cid (incr (storeGet s.store cid))).set cid _ = _
            rw [List.set_set]
          by_cases hfc : fishCellsOf w st1 s.g p.1 p.2 = []
          · by_cases hemp : emptyCellsOf w s.g p.1 p.2 = []
            · rw [processShark_stay (s := s1) hdead hfc hemp]
              show Inv w store0 rest { g := gset s.g p cid, store := st1, sup := s.sup, log := violLog s.g p s.log }
              rw [violLog_vacant hocc, hst1eq]
              exact inv_place w store0 rest p p s cid (decEnergy (incr (storeGet s.store cid))) s.sup
                hwf hinv hold hocc hp1 hp2 hpnr (hspS _ rfl) (Or.inl rfl) (haliveS _ rfl) hnwS
            · have hlen0 : (emptyCellsOf w s.g p.1 p.2).length ≠ 0 :=
                fun h0 => hemp (List.eq_nil_of_length_eq_zero h0)
              set ec := emptyCellsOf w s.g p.1 p.2 with hecdef
              set np := ec.getD (draw s.sup ec.length).1 (p.1, p.2) with hnpdef
              have hlt : (draw s.sup ec.length).1 < ec.length := draw_fst_lt _ _ hlen0
              have hnpmem : np ∈ ec := getD_mem _ _ _ hlt
              obtain ⟨hadj, holdnp, hnewnp⟩ := emptyCellsOf_mem w s.g p.1 p.2 np hnpmem
              obtain ⟨hr1, hr2⟩ := adjacentN_lt p.1 p.2 w.size hsize hp1 hp2 np hadj
              have hnp_ne_p : np ≠ p := by
                intro hcon
                rw [hcon, hold] at holdnp
                cases holdnp
              by_cases hlb : (decEnergy (storeGet s1.store cid)).LastBreed ≥ w.sharkBreed
              · rw [processShark_move_breed (s := s1) hdead hfc hemp hlb]
                show Inv w store0 rest { g := gset (gset s.g p st1.length) np cid, store := (st1 ++ [(⟨Species.shark, 0, w.starve, 0⟩ : Creature)]).set cid (resetBreed (decEnergy (storeGet s1.store cid))), sup := (draw s.sup ec.length).2, log := Event.breed cid st1.length p np :: violLog (gset s.g p st1.length) np (violLog s.g p s.log) }
                have hlenB : st1.length = s.store.length := by
                  rw [hst1eq]
                  simp
                rw [hs1cid, hlenB, violLog_vacant hocc]
                have hg1np : gget (gset s.g p s.store.length) np = none := by
                  rw [gget_gset_ne s.g p np _ hnp_ne_p]
                  exact hnewnp
                rw [violLog_vacant hg1np, gset_comm s.g p np s.store.length cid (Ne.symm hnp_ne_p)]
                have hstoreB : (st1 ++ [(⟨Species.shark, 0, w.starve, 0⟩ : Creature)]).set cid (resetBreed (decEnergy (incr (storeGet s.store cid)))) = (s.store.set cid (resetBreed (decEnergy (incr (storeGet s.store cid))))) ++ [(⟨Species.shark, 0, w.starve, 0⟩ : Creature)] := by
                  rw [hst1eq, List.set_append_left _ _ (by rw [List.length_set]; exact hcidlt'), List.set_set]
                rw [hstoreB]
                have hinv' := inv_place w store0 rest p np s cid
                  (resetBreed (decEnergy (incr (storeGet s.store cid)))) (draw s.sup ec.length).2
                  hwf hinv hold hocc hp1 hp2 hpnr (hspS _ rfl)
                  (Or.inr ⟨hr1, hr2, holdnp, hnewnp⟩) (haliveS _ rfl) hnwS
                exact inv_child w store0 rest p np
                  { g := gset s.g np cid, store := s.store.set cid (resetBreed (decEnergy (incr (storeGet s.store cid)))), sup := (draw s.sup ec.length).2, log := s.log }
                  cid s.store.length (⟨Species.shark, 0, w.starve, 0⟩ : Creature) hwf hinv'
                  (by show s.store.length = (s.store.set cid (resetBreed (decEnergy (incr (storeGet s.store cid))))).length; rw [List.length_set])
                  hold hp1 hp2 hpnr
                  (by show gget (gset s.g np cid) p = none; rw [gget_gset_ne s.g np p cid (Ne.symm hnp_ne_p)]; exact hocc)
                  (gget_gset_self s.g w.size np cid hinv.gdims hr1 hr2)
                  (by show (storeGet (s.store.set cid (resetBreed (decEnergy (incr (storeGet s.store cid))))) cid).LastBreed = 0; rw [storeGet_set_self _ _ _ hcidlt']; rfl)
                  (by rw [hshark0])
                  rfl
                  (fun hstv _ => hstv)
              · rw [processShark_move_nobreed (s := s1) hdead hfc hemp hlb]
                show Inv w store0 rest { g := gset s.g np cid, store := st1, sup := (draw s.sup ec.length).2, log := violLog s.g np s.log }
                rw [violLog_vacant hnewnp, hst1eq]
                exact inv_place w store0 rest p np s cid (decEnergy (incr (storeGet s.store cid)))
                  (draw s.sup ec.length).2 hwf hinv hold hocc hp1 hp2 hpnr (hspS _ rfl)
                  (Or.inr ⟨hr1, hr2, holdnp, hnewnp⟩) (haliveS _ rfl) hnwS
          · have hlen0 : (fishCellsOf w st1 s.g p.1 p.2).length ≠ 0 :=
              fun h0 => hfc (List.eq_nil_of_length_eq_zero h0)
            set fc := fishCellsOf w st1 s.g p.1 p.2 with hfcdef
            set np := fc.getD (draw s.sup fc.length).1 (p.1, p.2) with hnpdef
            have hlt : (draw s.sup fc.length).1 < fc.length := draw_fst_lt _ _ hlen0
            have hnpmem : np ∈ fc := getD_mem _ _ _ hlt
            obtain ⟨hadj, fid, holdnp, hfishnp, hnewnp⟩ := fishCellsOf_mem w st1 s.g p.1 p.2 np hnpmem
            obtain ⟨hr1, hr2⟩ := adjacentN_lt p.1 p.2 w.size hsize hp1 hp2 np hadj
            have hfidlt : fid < store0.length := wf_valid hwf holdnp
            have hfidcid : fid ≠ cid := by
              intro hcon
              subst hcon
              rw [hst1eq, storeGet_set_self _ _ _ hcidlt'] at hfishnp
              have hx : (storeGet s.store fid).species = Species.fish := hfishnp
              rw [hspec] at hx
              cases hx
            have hfid0 : (storeGet store0 fid).species = Species.fish := by
              rw [← hinv.speciesPres fid hfidlt]
              rw [hst1eq, storeGet_set_ne _ _ _ _ hfidcid] at hfishnp
              exact hfishnp
            have hnp_ne_p : np ≠ p := by
              intro hcon
              rw [hcon, hold] at holdnp
              exact hfidcid (Option.some.inj holdnp).symm
            have hst2eq : st1.set cid (setEnergy (decEnergy (storeGet s1.store cid)) w.starve) = s.store.set cid (setEnergy (decEnergy (incr (storeGet s.store cid))) w.starve) := by
              rw [hst1eq, hs1cid, List.set_set]
            by_cases hlb : (setEnergy (decEnergy (storeGet s1.store cid)) w.starve).LastBreed ≥ w.sharkBreed
            · rw [processShark_eat_breed (s := s1) hdead hfc hlb]
              show Inv w store0 rest { g := gset (gset s.g p (st1.set cid (setEnergy (decEnergy (storeGet s1.store cid)) w.starve)).length) np cid, store := ((st1.set cid (setEnergy (decEnergy (storeGet s1.store cid)) w.starve)) ++ [(⟨Species.shark, 0, w.starve, 0⟩ : Creature)]).set cid (resetBreed (setEnergy (decEnergy (storeGet s1.store cid)) w.starve)), sup := (draw s.sup fc.length).2, log := Event.breed cid (st1.set cid (setEnergy (decEnergy (storeGet s1.store cid)) w.starve)).length p np :: violLog (gset s.g p (st1.set cid (setEnergy (decEnergy (storeGet s1.store cid)) w.starve)).length) np (violLog s.g p (Event.eat cid ((gget w.grid np).getD 0) p np :: s.log)) }
              rw [hst2eq, hs1cid, List.length_set, violLog_vacant hocc, holdnp, Option.getD_some]
              have hg1np : gget (gset s.g p s.store.length) np = none := by
                rw [gget_gset_ne s.g p np _ hnp_ne_p]
                exact hnewnp
              rw [violLog_vacant hg1np, gset_comm s.g p np s.store.length cid (Ne.symm hnp_ne_p)]
              have hstoreC : ((s.store.set cid (setEnergy (decEnergy (incr (storeGet s.store cid))) w.starve)) ++ [(⟨Species.shark, 0, w.starve, 0⟩ : Creature)]).set cid (resetBreed (setEnergy (decEnergy (incr (storeGet s.store cid))) w.starve)) = (s.store.set cid (resetBreed (setEnergy (decEnergy (incr (storeGet s.store cid))) w.starve))) ++ [(⟨Species.shark, 0, w.starve, 0⟩ : Creature)] := by
                rw [List.set_append_left _ _ (by rw [List.length_set]; exact hcidlt'), List.set_set]
              rw [hstoreC]
              have hinv' := inv_eat w store0 rest p np s cid fid
                (resetBreed (setEnergy (decEnergy (incr (storeGet s.store cid))) w.starve))
                (draw s.sup fc.length).2 hwf hinv hold hocc hp1 hp2 hpnr holdnp hfid0 hnewnp
                ⟨hr1, hr2⟩ hshark0 (hspS _ rfl) rfl (hnwS hshark0) hkey_rest
              exact inv_child w store0 rest p np
                { g := gset s.g np cid, store := s.store.set cid (resetBreed (setEnergy (decEnergy (incr (storeGet s.store cid))) w.starve)), sup := (draw s.sup fc.length).2, log := Event.eat cid fid p np :: s.log }
                cid s.store.length (⟨Species.shark, 0, w.starve, 0⟩ : Creature) hwf hinv'
                (by show s.store.length = (s.store.set cid (resetBreed (setEnergy (decEnergy (incr (storeGet s.store cid))) w.starve))).length; rw [List.length_set])
                hold hp1 hp2 hpnr
                (by show gget (gset s.g np cid) p = none; rw [gget_gset_ne s.g np p cid (Ne.symm hnp_ne_p)]; exact hocc)
                (gget_gset_self s.g w.size np cid hinv.gdims hr1 hr2)
                (by show (storeGet (s.store.set cid (resetBreed (setEnergy (decEnergy (incr (storeGet s.store cid))) w.starve))) cid).LastBreed = 0; rw [storeGet_set_self _ _ _ hcidlt']; rfl)
                (by rw [hshark0])
                rfl
                (fun hstv _ => hstv)
            · rw [processShark_eat_nobreed (s := s1) hdead hfc hlb]
              show Inv w store0 rest { g := gset s.g np cid, store := st1.set cid (setEnergy (decEnergy (storeGet s1.store cid)) w.starve), sup := (draw s.sup fc.length).2, log := violLog s.g np (Event.eat cid ((gget w.grid np).getD 0) p np :: s.log) }
              rw [hst2eq, violLog_vacant hnewnp, holdnp, Option.getD_some]
              exact inv_eat w store0 rest p np s cid fid
                (setEnergy (decEnergy (incr (storeGet s.store cid))) w.starve)
                (draw s.sup fc.length).2 hwf hinv hold hocc hp1 hp2 hpnr holdnp hfid0 hnewnp
                ⟨hr1, hr2⟩ hshark0 (hspS _ rfl) rfl (hnwS hshark0) hkey_rest


/-! ### Folding the invariant over the whole scan -/

lemma fold_inv (w : World) (store0 : Store) :
    ∀ (rest done : List (Nat × Nat)) (s : SimState),
    WF w store0 →
    scanOrder w.size = done ++ rest →
    Inv w store0 rest s →
    Inv w store0 [] (rest.foldl (stepCell w) s) := by
  intro rest
  induction rest with
  | nil =>
    intro done s _ _ hinv
    exact hinv
  | cons p rest' ih =>
    intro done s hwf hsplit hinv
    rw [List.foldl_cons]
    exact ih (done ++ [p]) (stepCell w s p) hwf
      (by rw [hsplit]; exact (List.append_assoc done [p] rest').symm)
      (stepCell_inv w store0 done rest' p s hwf hsplit hinv)

/-- The invariant holds before the scan starts. -/
lemma inv_init (w : World) (store0 : Store) (sup : List Nat) (hwf : WF w store0) :
    Inv w store0 (scanOrder w.size) ⟨emptyGrid w.size, store0, sup, []⟩ := by
  have hempty : ∀ q : Nat × Nat, gget (emptyGrid w.size) q = none := gget_emptyGrid w.size
  refine ⟨Nat.le_refl _, fun id _ => rfl, fun id _ _ => rfl, gdims_emptyGrid w.size,
    ?_, ?_, ?_, ?_, ?_, ?_, ?_, ?_, ?_, ?_, ?_⟩
  · intro q id hq
    rw [hempty q] at hq
    cases hq
  · intro q q' id hq
    rw [hempty q] at hq
    cases hq
  · intro q id hq
    rw [hempty q] at hq
    cases hq
  · intro q _ id _
    refine ⟨rfl, ?_⟩
    intro r hc
    rw [hempty r] at hc
    cases hc
  · intro q _ id occ _ hqocc
    rw [hempty q] at hqocc
    cases hqocc
  · intro q hc
    cases hc
  · intro sh f spos fpos hc
    cases hc
  · intro q occ hc
    cases hc
  · intro pid chid origin dest hc
    cases hc
  · intro q id hqid _ _
    refine ⟨?_, ?_⟩
    · intro r hc
      rw [hempty r] at hc
      cases hc
    · intro hqnr
      have hqr : q.1 < w.size ∧ q.2 < w.size := by
        by_contra hc
        rw [gget_oob w.grid w.size q hwf.1 hc] at hqid
        cases hqid
      exact absurd ((mem_scanOrder w.size q).mpr hqr) hqnr
  · intro _ q id hq
    rw [hempty q] at hq
    cases hq

/-- After a full chronon the invariant holds with nothing left to scan. -/
lemma processChronon_inv (w : World) (store0 : Store) (sup : List Nat)
    (hwf : WF w store0) :
    Inv w store0 [] (processChronon w store0 sup) := by
  unfold processChronon
  exact fold_inv w store0 (scanOrder w.size) [] ⟨emptyGrid w.size, store0, sup, []⟩
    hwf rfl (inv_init w store0 sup hwf)

/-! ### The conservation bound: counting species across one step -/

lemma speciesCount_set_unref (st : Store) (g : Grid) (size : Nat) (sp : Species)
    (cid : Nat) (c' : Creature)
    (hsp : c'.species = (storeGet st cid).species) :
    speciesCount (st.set cid c') g size sp = speciesCount st g size sp := by
  refine speciesCount_congr _ _ _ ?_
  intro q id hq
  rcases eq_or_ne id cid with h | h
  · subst h
    rcases Nat.lt_or_ge id st.length with hlt | hge
    · rw [storeGet_set_self _ _ _ hlt, hsp]
    · rw [List.set_eq_of_length_le hge]
  · rw [storeGet_set_ne _ _ _ _ h]

lemma speciesCount_append_valid (st : Store) (g : Grid) (size : Nat) (sp : Species)
    (l : Store) (hvalid : ∀ q id, gget g q = some id → id < st.length) :
    speciesCount (st ++ l) g size sp = speciesCount st g size sp := by
  refine speciesCount_congr _ _ _ ?_
  intro q id hq
  rw [storeGet_append_lt _ _ _ (hvalid q id hq)]

lemma speciesCount_emptyGrid (st : Store) (size : Nat) (sp : Species) :
    speciesCount st (emptyGrid size) size sp = 0 := by
  unfold speciesCount
  rw [List.countP_eq_zero]
  intro q _
  unfold speciesAt
  rw [gget_emptyGrid size q]
  simp

lemma hasEmptyNeighbor_of (w : World) (p q : Nat × Nat)
    (hq : q ∈ adjacentN p.1 p.2 w.size) (hqn : gget w.grid q = none) :
    hasEmptyNeighbor w p = true := by
  unfold hasEmptyNeighbor
  rw [List.any_eq_true]
  refine ⟨q, hq, ?_⟩
  rw [hqn]
  rfl

lemma hasPreyNeighbor_of (w : World) (store0 : Store) (p q : Nat × Nat) (fid : Nat)
    (hq : q ∈ adjacentN p.1 p.2 w.size) (hqf : gget w.grid q = some fid)
    (hsp : (storeGet store0 fid).species = Species.fish) :
    hasPreyNeighbor w store0 p = true := by
  unfold hasPreyNeighbor
  rw [List.any_eq_true]
  refine ⟨q, hq, ?_⟩
  rw [hqf]
  show decide ((storeGet store0 fid).species = Species.fish) = true
  rw [hsp]
  rfl

lemma eligibleBreeder_fish_true (w : World) (store0 : Store) (p : Nat × Nat) (cid : Nat)
    (hold : gget w.grid p = some cid)
    (hsp0 : (storeGet store0 cid).species = Species.fish)
    (htimer : w.fishBreed ≤ (storeGet store0 cid).LastBreed + 1)
    (hemp : hasEmptyNeighbor w p = true) :
    eligibleBreeder w store0 Species.fish p = true := by
  unfold eligibleBreeder
  rw [hold]
  show (decide ((storeGet store0 cid).species = Species.fish) &&
    (decide (w.fishBreed ≤ (storeGet store0 cid).LastBreed + 1) && hasEmptyNeighbor w p)) = true
  rw [hsp0, hemp]
  simp [htimer]

lemma eligibleBreeder_shark_true (w : World) (store0 : Store) (p : Nat × Nat) (cid : Nat)
    (hold : gget w.grid p = some cid)
    (hsp0 : (storeGet store0 cid).species = Species.shark)
    (htimer : w.sharkBreed ≤ (storeGet store0 cid).LastBreed + 1)
    (hdst : (hasPreyNeighbor w store0 p || hasEmptyNeighbor w p) = true) :
    eligibleBreeder w store0 Species.shark p = true := by
  unfold eligibleBreeder
  rw [hold]
  show (decide ((storeGet store0 cid).species = Species.shark) &&
    (decide (w.sharkBreed ≤ (storeGet store0 cid).LastBreed + 1) &&
      (hasPreyNeighbor w store0 p || hasEmptyNeighbor w p))) = true
  rw [hsp0, hdst]
  simp [htimer]

lemma le_add_ites (a b c : Nat) : a ≤ a + b + c := by omega

lemma stepCell_count (w : World) (store0 : Store) (rest : List (Nat × Nat))
    (p : Nat × Nat) (s : SimState) (sp : Species)
    (hwf : WF w store0) (hp1 : p.1 < w.size) (hp2 : p.2 < w.size)
    (hinv : Inv w store0 (p :: rest) s) :
    speciesCount (stepCell w s p).store (stepCell w s p).g w.size sp
      ≤ speciesCount s.store s.g w.size sp
        + (if speciesAt store0 w.grid sp p then 1 else 0)
        + (if eligibleBreeder w store0 sp p then 1 else 0) := by
  have hsize : 0 < w.size := by omega
  cases hold : gget w.grid p with
  | none =>
    rw [stepCell_none hold]
    exact le_add_ites _ _ _
  | some cid =>
    cases hocc : gget s.g p with
    | some occ =>
      rw [stepCell_skip hold hocc]
      show speciesCount s.store s.g w.size sp ≤ _
      exact le_add_ites _ _ _
    | none =>
      obtain ⟨hunt, hcng⟩ := hinv.unscanned p (List.mem_cons_self p rest) cid hold
      have hcidlt : cid < store0.length := wf_valid hwf hold
      have hcidlt' : cid < s.store.length := lt_of_lt_of_le hcidlt hinv.storeLen
      cases hspec : (storeGet s.store cid).species with
      | empty =>
        rw [stepCell_proc_empty hold hocc hspec]
        show speciesCount (s.store.set cid (incr (storeGet s.store cid))) s.g w.size sp ≤ _
        rw [speciesCount_set_unref s.store s.g w.size sp cid (incr (storeGet s.store cid)) rfl]
        exact le_add_ites _ _ _
      | fish =>
        rw [stepCell_proc_fish hold hocc hspec]
        set s1 : SimState := { g := s.g, store := s.store.set cid (incr (storeGet s.store cid)), sup := s.sup, log := s.log } with hs1def
        have hs1cid : storeGet s1.store cid = incr (storeGet s.store cid) :=
          storeGet_set_self s.store cid _ hcidlt'
        have hfish0 : (storeGet store0 cid).species = Species.fish := by
          rw [← hunt]
          exact hspec
        have hA : (if speciesAt store0 w.grid sp p = true then 1 else 0)
            = (if Species.fish = sp then 1 else 0) := by
          rw [speciesAt_some hold, hfish0]
          simp only [decide_eq_true_eq]
        by_cases hec : emptyCellsOf w s.g p.1 p.2 = []
        · rw [processFish_stay (s := s1) hec]
          show speciesCount (s.store.set cid (incr (storeGet s.store cid))) (gset s.g p cid) w.size sp ≤ speciesCount s.store s.g w.size sp + (if speciesAt store0 w.grid sp p then 1 else 0) + (if eligibleBreeder w store0 sp p then 1 else 0)
          rw [speciesCount_gset _ s.g w.size sp p cid hp1 hp2 hinv.gdims hocc]
          rw [speciesCount_set_unref s.store s.g w.size sp cid (incr (storeGet s.store cid)) rfl]
          rw [storeGet_set_self s.store cid _ hcidlt']
          have hci : (incr (storeGet s.store cid)).species = Species.fish := hspec
          rw [hci, hA]
          exact Nat.le_add_right _ _
        · have hlen0 : (emptyCellsOf w s.g p.1 p.2).length ≠ 0 :=
            fun h0 => hec (List.eq_nil_of_length_eq_zero h0)
          set ec := emptyCellsOf w s.g p.1 p.2 with hecdef
          set np := ec.getD (draw s.sup ec.length).1 (p.1, p.2) with hnpdef
          have hlt : (draw s.sup ec.length).1 < ec.length := draw_fst_lt _ _ hlen0
          have hnpmem : np ∈ ec := getD_mem _ _ _ hlt
          obtain ⟨hadj, holdnp, hnewnp⟩ := emptyCellsOf_mem w s.g p.1 p.2 np hnpmem
          obtain ⟨hr1, hr2⟩ := adjacentN_lt p.1 p.2 w.size hsize hp1 hp2 np hadj
          have hnp_ne_p : np ≠ p := by
            intro hcon
            rw [hcon, hold] at holdnp
            cases holdnp
          have hemp' : hasEmptyNeighbor w p = true := hasEmptyNeighbor_of w p np hadj holdnp
          by_cases hlb : (storeGet s1.store cid).LastBreed ≥ w.fishBreed
          · rw [processFish_breed (s := s1) hec hlb]
            show speciesCount ((s1.store ++ [(⟨Species.fish, 0, 0, 0⟩ : Creature)]).set cid (resetBreed (storeGet s1.store cid))) (gset (gset s.g p s1.store.length) np cid) w.size sp ≤ speciesCount s.store s.g w.size sp + (if speciesAt store0 w.grid sp p then 1 else 0) + (if eligibleBreeder w store0 sp p then 1 else 0)
            have hlenA : s1.store.length = s.store.length := by
              show (s.store.set cid (incr (storeGet s.store cid))).length = s.store.length
              simp
            rw [hs1cid, hlenA]
            have hstoreEq : (s1.store ++ [(⟨Species.fish, 0, 0, 0⟩ : Creature)]).set cid (resetBreed (incr (storeGet s.store cid))) = (s.store.set cid (resetBreed (incr (storeGet s.store cid)))) ++ [(⟨Species.fish, 0, 0, 0⟩ : Creature)] := by
              show ((s.store.set cid (incr (storeGet s.store cid))) ++ [(⟨Species.fish, 0, 0, 0⟩ : Creature)]).set cid (resetBreed (incr (storeGet s.store cid))) = _
              rw [List.set_append_left _ _ (by rw [List.length_set]; exact hcidlt'), List.set_set]
            rw [hstoreEq]
            set stF := (s.store.set cid (resetBreed (incr (storeGet s.store cid)))) ++ [(⟨Species.fish, 0, 0, 0⟩ : Creature)] with hstFdef
            have hg1np : gget (gset s.g p s.store.length) np = none := by
              rw [gget_gset_ne s.g p np _ hnp_ne_p]
              exact hnewnp
            have hg1dims : GDims (gset s.g p s.store.length) w.size :=
              gdims_gset s.g w.size p s.store.length hinv.gdims
            rw [speciesCount_gset stF (gset s.g p s.store.length) w.size sp np cid hr1 hr2 hg1dims hg1np]
            rw [speciesCount_gset stF s.g w.size sp p s.store.length hp1 hp2 hinv.gdims hocc]
            have hcidlt2 : cid < (s.store.set cid (resetBreed (incr (storeGet s.store cid)))).length := by
              rw [List.length_set]
              exact hcidlt'
            have h1 : (storeGet stF cid).species = Species.fish := by
              rw [hstFdef, storeGet_append_lt _ _ _ hcidlt2, storeGet_set_self _ _ _ hcidlt']
              exact hspec
            have hlen' : (s.store.set cid (resetBreed (incr (storeGet s.store cid)))).length = s.store.length := by
              simp
            have h2 : (storeGet stF s.store.length).species = Species.fish := by
              rw [hstFdef, ← hlen', storeGet_append_self]
            have hcnt : speciesCount stF s.g w.size sp = speciesCount s.store s.g w.size sp := by
              rw [hstFdef]
              rw [speciesCount_append_valid _ s.g w.size sp _ (fun q id hq => by
                simpa using hinv.gvalid q id hq)]
              exact speciesCount_set_unref s.store s.g w.size sp cid _ rfl
            have htimer : w.fishBreed ≤ (storeGet store0 cid).LastBreed + 1 := by
              rw [hs1cid] at hlb
              rw [← hunt]
              exact hlb
            have hB : (if Species.fish = sp then 1 else 0)
                ≤ (if eligibleBreeder w store0 sp p then 1 else 0) := by
              rcases eq_or_ne Species.fish sp with hfs | hfs
              · rw [← hfs, eligibleBreeder_fish_true w store0 p cid hold hfish0 htimer hemp']
                simp
              · rw [if_neg hfs]
                exact Nat.zero_le _
            rw [hcnt, h1, h2, hA]
            exact Nat.add_le_add_left hB _
          · rw [processFish_move (s := s1) hec hlb]
            show speciesCount (s.store.set cid (incr (storeGet s.store cid))) (gset s.g np cid) w.size sp ≤ speciesCount s.store s.g w.size sp + (if speciesAt store0 w.grid sp p then 1 else 0) + (if eligibleBreeder w store0 sp p then 1 else 0)
            rw [speciesCount_gset _ s.g w.size sp np cid hr1 hr2 hinv.gdims hnewnp]
            rw [speciesCount_set_unref s.store s.g w.size sp cid (incr (storeGet s.store cid)) rfl]
            rw [storeGet_set_self s.store cid _ hcidlt']
            have hci : (incr (storeGet s.store cid)).species = Species.fish := hspec
            rw [hci, hA]
            exact Nat.le_add_right _ _
      | shark =>
        rw [stepCell_proc_shark hold hocc hspec]
        set s1 : SimState := { g := s.g, store := s.store.set cid (incr (storeGet s.store cid)), sup := s.sup, log := s.log } with hs1def
        have hs1cid : storeGet s1.store cid = incr (storeGet s.store cid) :=
          storeGet_set_self s.store cid _ hcidlt'
        have hshark0 : (storeGet store0 cid).species = Species.shark := by
          rw [← hunt]
          exact hspec
        have hA : (if speciesAt store0 w.grid sp p = true then 1 else 0)
            = (if Species.shark = sp then 1 else 0) := by
          rw [speciesAt_some hold, hshark0]
          simp only [decide_eq_true_eq]
        by_cases hdead : (decEnergy (storeGet s1.store cid)).Energy ≤ 0
        · rw [processShark_dead (s := s1) hdead]
          show speciesCount (s1.store.set cid (decEnergy (storeGet s1.store cid))) s.g w.size sp ≤ speciesCount s.store s.g w.size sp + (if speciesAt store0 w.grid sp p then 1 else 0) + (if eligibleBreeder w store0 sp p then 1 else 0)
          have hstoreD : s1.store.set cid (decEnergy (storeGet s1.store cid)) = s.store.set cid (decEnergy (incr (storeGet s.store cid))) := by
            rw [hs1cid]
            show (s.store.set cid (incr (storeGet s.store cid))).set cid _ = _
            rw [List.set_set]
          rw [hstoreD]
          rw [speciesCount_set_unref s.store s.g w.size sp cid (decEnergy (incr (storeGet s.store cid))) rfl]
          exact le_add_ites _ _ _
        · set st1 := s1.store.set cid (decEnergy (storeGet s1.store cid)) with hst1def
          have hst1eq : st1 = s.store.set cid (decEnergy (incr (storeGet s.store cid))) := by
            rw [hst1def, hs1cid]
            show (s.store.set cid (incr (storeGet s.store cid))).set cid _ = _
            rw [List.set_set]
          by_cases hfc : fishCellsOf w st1 s.g p.1 p.2 = []
          · by_cases hemp : emptyCellsOf w s.g p.1 p.2 = []
            · rw [processShark_stay (s := s1) hdead hfc hemp]
              show speciesCount st1 (gset s.g p cid) w.size sp ≤ speciesCount s.store s.g w.size sp + (if speciesAt store0 w.grid sp p then 1 else 0) + (if eligibleBreeder w store0 sp p then 1 else 0)
              rw [hst1eq]
              rw [speciesCount_gset _ s.g w.size sp p cid hp1 hp2 hinv.gdims hocc]
              rw [speciesCount_set_unref s.store s.g w.size sp cid (decEnergy (incr (storeGet s.store cid))) rfl]
              rw [storeGet_set_self s.store cid _ hcidlt']
              have hci : (decEnergy (incr (storeGet s.store cid))).species = Species.shark := hspec
              rw [hci, hA]
              exact Nat.le_add_right _ _
            · have hlen0 : (emptyCellsOf w s.g p.1 p.2).length ≠ 0 :=
                fun h0 => hemp (List.eq_nil_of_length_eq_zero h0)
              set ec := emptyCellsOf w s.g p.1 p.2 with hecdef
              set np := ec.getD (draw s.sup ec.length).1 (p.1, p.2) with hnpdef
              have hlt : (draw s.sup ec.length).1 < ec.length := draw_fst_lt _ _ hlen0
              have hnpmem : np ∈ ec := getD_mem _ _ _ hlt
              obtain ⟨hadj, holdnp, hnewnp⟩ := emptyCellsOf_mem w s.g p.1 p.2 np hnpmem
              obtain ⟨hr1, hr2⟩ := adjacentN_lt p.1 p.2 w.size hsize hp1 hp2 np hadj
              have hnp_ne_p : np ≠ p := by
                intro hcon
                rw [hcon, hold] at holdnp
                cases holdnp
              have hemp' : hasEmptyNeighbor w p = true := hasEmptyNeighbor_of w p np hadj holdnp
              by_cases hlb : (decEnergy (storeGet s1.store cid)).LastBreed ≥ w.sharkBreed
              · rw [processShark_move_breed (s := s1) hdead hfc hemp hlb]
                show speciesCount ((st1 ++ [(⟨Species.shark, 0, w.starve, 0⟩ : Creature)]).set cid (resetBreed (decEnergy (storeGet s1.store cid)))) (gset (gset s.g p st1.length) np cid) w.size sp ≤ speciesCount s.store s.g w.size sp + (if speciesAt store0 w.grid sp p then 1 else 0) + (if eligibleBreeder w store0 sp p then 1 else 0)
                have hlenB : st1.length = s.store.length := by
                  rw [hst1eq]
                  simp
                rw [hs1cid, hlenB]
                have hstoreB : (st1 ++ [(⟨Species.shark, 0, w.starve, 0⟩ : Creature)]).set cid (resetBreed (decEnergy (incr (storeGet s.store cid)))) = (s.store.set cid (resetBreed (decEnergy (incr (storeGet s.store cid))))) ++ [(⟨Species.shark, 0, w.starve, 0⟩ : Creature)] := by
                  rw [hst1eq, List.set_append_left _ _ (by rw [List.length_set]; exact hcidlt'), List.set_set]
                rw [hstoreB]
                set stF := (s.store.set cid (resetBreed (decEnergy (incr (storeGet s.store cid))))) ++ [(⟨Species.shark, 0, w.starve, 0⟩ : Creature)] with hstFdef
                have hg1np : gget (gset s.g p s.store.length) np = none := by
                  rw [gget_gset_ne s.g p np _ hnp_ne_p]
                  exact hnewnp
                have hg1dims : GDims (gset s.g p s.store.length) w.size :=
                  gdims_gset s.g w.size p s.store.length hinv.gdims
                rw [speciesCount_gset stF (gset s.g p s.store.length) w.size sp np cid hr1 hr2 hg1dims hg1np]
                rw [speciesCount_gset stF s.g w.size sp p s.store.length hp1 hp2 hinv.gdims hocc]
                have hcidlt2 : cid < (s.store.set cid (resetBreed (decEnergy (incr (storeGet s.store cid))))).length := by
                  rw [List.length_set]
                  exact hcidlt'
                have h1 : (storeGet stF cid).species = Species.shark := by
                  rw [hstFdef, storeGet_append_lt _ _ _ hcidlt2, storeGet_set_self _ _ _ hcidlt']
                  exact hspec
                have hlen' : (s.store.set cid (resetBreed (decEnergy (incr (storeGet s.store cid))))).length = s.store.length := by
                  simp
                have h2 : (storeGet stF s.store.length).species = Species.shark := by
                  rw [hstFdef, ← hlen', storeGet_append_self]
                have hcnt : speciesCount stF s.g w.size sp = speciesCount s.store s.g w.size sp := by
                  rw [hstFdef]
                  rw [speciesCount_append_valid _ s.g w.size sp _ (fun q id hq => by
                    simpa using hinv.gvalid q id hq)]
                  exact speciesCount_set_unref s.store s.g w.size sp cid _ rfl
                have htimer : w.sharkBreed ≤ (storeGet store0 cid).LastBreed + 1 := by
                  rw [hs1cid] at hlb
                  rw [← hunt]
                  exact hlb
                have hdst : (hasPreyNeighbor w store0 p || hasEmptyNeighbor w p) = true := by
                  rw [hemp']
                  simp
                have hB : (if Species.shark = sp then 1 else 0)
                    ≤ (if eligibleBreeder w store0 sp p then 1 else 0) := by
                  rcases eq_or_ne Species.shark sp with hfs | hfs
                  · rw [← hfs, eligibleBreeder_shark_true w store0 p cid hold hshark0 htimer hdst]
                    simp
                  · rw [if_neg hfs]
                    exact Nat.zero_le _
                rw [hcnt, h1, h2, hA]
                exact Nat.add_le_add_left hB _
              · rw [processShark_move_nobreed (s := s1) hdead hfc hemp hlb]
                show speciesCount st1 (gset s.g np cid) w.size sp ≤ speciesCount s.store s.g w.size sp + (if speciesAt store0 w.grid sp p then 1 else 0) + (if eligibleBreeder w store0 sp p then 1 else 0)
                rw [hst1eq]
                rw [speciesCount_gset _ s.g w.size sp np cid hr1 hr2 hinv.gdims hnewnp]
                rw [speciesCount_set_unref s.store s.g w.size sp cid (decEnergy (incr (storeGet s.store cid))) rfl]
                rw [storeGet_set_self s.store cid _ hcidlt']
                have hci : (decEnergy (incr (storeGet s.store cid))).species = Species.shark := hspec
                rw [hci, hA]
                exact Nat.le_add_right _ _
          · have hlen0 : (fishCellsOf w st1 s.g p.1 p.2).length ≠ 0 :=
              fun h0 => hfc (List.eq_nil_of_length_eq_zero h0)
            set fc := fishCellsOf w st1 s.g p.1 p.2 with hfcdef
            set np := fc.getD (draw s.sup fc.length).1 (p.1, p.2) with hnpdef
            have hlt : (draw s.sup fc.length).1 < fc.length := draw_fst_lt _ _ hlen0
            have hnpmem : np ∈ fc := getD_mem _ _ _ hlt
            obtain ⟨hadj, fid, holdnp, hfishnp, hnewnp⟩ := fishCellsOf_mem w st1 s.g p.1 p.2 np hnpmem
            obtain ⟨hr1, hr2⟩ := adjacentN_lt p.1 p.2 w.size hsize hp1 hp2 np hadj
            have hfidlt : fid < store0.length := wf_valid hwf holdnp
            have hfidcid : fid ≠ cid := by
              intro hcon
              subst hcon
              rw [hst1eq, storeGet_set_self _ _ _ hcidlt'] at hfishnp
              have hx : (storeGet s.store fid).species = Species.fish := hfishnp
              rw [hspec] at hx
              cases hx
            have hfid0 : (storeGet store0 fid).species = Species.fish := by
              rw [← hinv.speciesPres fid hfidlt]
              rw [hst1eq, storeGet_set_ne _ _ _ _ hfidcid] at hfishnp
              exact hfishnp
            have hnp_ne_p : np ≠ p := by
              intro hcon
              rw [hcon, hold] at holdnp
              exact hfidcid (Option.some.inj holdnp).symm
            have hst2eq : st1.set cid (setEnergy (decEnergy (storeGet s1.store cid)) w.starve) = s.store.set cid (setEnergy (decEnergy (incr (storeGet s.store cid))) w.starve) := by
              rw [hst1eq, hs1cid, List.set_set]
            by_cases hlb : (setEnergy (decEnergy (storeGet s1.store cid)) w.starve).LastBreed ≥ w.sharkBreed
            · rw [processShark_eat_breed (s := s1) hdead hfc hlb]
              show speciesCount (((st1.set cid (setEnergy (decEnergy (storeGet s1.store cid)) w.starve)) ++ [(⟨Species.shark, 0, w.starve, 0⟩ : Creature)]).set cid (resetBreed (setEnergy (decEnergy (storeGet s1.store cid)) w.starve))) (gset (gset s.g p (st1.set cid (setEnergy (decEnergy (storeGet s1.store cid)) w.starve)).length) np cid) w.size sp ≤ speciesCount s.store s.g w.size sp + (if speciesAt store0 w.grid sp p then 1 else 0) + (if eligibleBreeder w store0 sp p then 1 else 0)
              rw [hst2eq, hs1cid, List.length_set]
              have hstoreC : ((s.store.set cid (setEnergy (decEnergy (incr (storeGet s.store cid))) w.starve)) ++ [(⟨Species.shark, 0, w.starve, 0⟩ : Creature)]).set cid (resetBreed (setEnergy (decEnergy (incr (storeGet s.store cid))) w.starve)) = (s.store.set cid (resetBreed (setEnergy (decEnergy (incr (storeGet s.store cid))) w.starve))) ++ [(⟨Species.shark, 0, w.starve, 0⟩ : Creature)] := by
                rw [List.set_append_left _ _ (by rw [List.length_set]; exact hcidlt'), List.set_set]
              rw [hstoreC]
              set stF := (s.store.set cid (resetBreed (setEnergy (decEnergy (incr (storeGet s.store cid))) w.starve))) ++ [(⟨Species.shark, 0, w.starve, 0⟩ : Creature)] with hstFdef
              have hg1np : gget (gset s.g p s.store.length) np = none := by
                rw [gget_gset_ne s.g p np _ hnp_ne_p]
                exact hnewnp
              have hg1dims : GDims (gset s.g p s.store.length) w.size :=
                gdims_gset s.g w.size p s.store.length hinv.gdims
              rw [speciesCount_gset stF (gset s.g p s.store.length) w.size sp np cid hr1 hr2 hg1dims hg1np]
              rw [speciesCount_gset stF s.g w.size sp p s.store.length hp1 hp2 hinv.gdims hocc]
              have hcidlt2 : cid < (s.store.set cid (resetBreed (setEnergy (decEnergy (incr (storeGet s.store cid))) w.starve))).length := by
                rw [List.length_set]
                exact hcidlt'
              have h1 : (storeGet stF cid).species = Species.shark := by
                rw [hstFdef, storeGet_append_lt _ _ _ hcidlt2, storeGet_set_self _ _ _ hcidlt']
                exact hspec
              have hlen' : (s.store.set cid (resetBreed (setEnergy (decEnergy (incr (storeGet s.store cid))) w.starve))).length = s.store.length := by
                simp
              have h2 : (storeGet stF s.store.length).species = Species.shark := by
                rw [hstFdef, ← hlen', storeGet_append_self]
              have hcnt : speciesCount stF s.g w.size sp = speciesCount s.store s.g w.size sp := by
                rw [hstFdef]
                rw [speciesCount_append_valid _ s.g w.size sp _ (fun q id hq => by
                  simpa using hinv.gvalid q id hq)]
                exact speciesCount_set_unref s.store s.g w.size sp cid _ rfl
              have htimer : w.sharkBreed ≤ (storeGet store0 cid).LastBreed + 1 := by
                rw [hs1cid] at hlb
                rw [← hunt]
                exact hlb
              have hdst : (hasPreyNeighbor w store0 p || hasEmptyNeighbor w p) = true := by
                rw [hasPreyNeighbor_of w store0 p np fid hadj holdnp hfid0]
                rfl
              have hB : (if Species.shark = sp then 1 else 0)
                  ≤ (if eligibleBreeder w store0 sp p then 1 else 0) := by
                rcases eq_or_ne Species.shark sp with hfs | hfs
                · rw [← hfs, eligibleBreeder_shark_true w store0 p cid hold hshark0 htimer hdst]
                  simp
                · rw [if_neg hfs]
                  exact Nat.zero_le _
              rw [hcnt, h1, h2, hA]
              exact Nat.add_le_add_left hB _
            · rw [processShark_eat_nobreed (s := s1) hdead hfc hlb]
              show speciesCount (st1.set cid (setEnergy (decEnergy (storeGet s1.store cid)) w.starve)) (gset s.g np cid) w.size sp ≤ speciesCount s.store s.g w.size sp + (if speciesAt store0 w.grid sp p then 1 else 0) + (if eligibleBreeder w store0 sp p then 1 else 0)
              rw [hst2eq]
              rw [speciesCount_gset _ s.g w.size sp np cid hr1 hr2 hinv.gdims hnewnp]
              rw [speciesCount_set_unref s.store s.g w.size sp cid (setEnergy (decEnergy (incr (storeGet s.store cid))) w.starve) rfl]
              rw [storeGet_set_self s.store cid _ hcidlt']
              have hci : (setEnergy (decEnergy (incr (storeGet s.store cid))) w.starve).species = Species.shark := hspec
              rw [hci, hA]
              exact Nat.le_add_right _ _

lemma fold_count (w : World) (store0 : Store) :
    ∀ (rest done : List (Nat × Nat)) (s : SimState) (sp : Species),
    WF w store0 →
    scanOrder w.size = done ++ rest →
    Inv w store0 rest s →
    speciesCount (rest.foldl (stepCell w) s).store (rest.foldl (stepCell w) s).g w.size sp
      ≤ speciesCount s.store s.g w.size sp
        + rest.countP (speciesAt store0 w.grid sp)
        + rest.countP (eligibleBreeder w store0 sp) := by
  intro rest
  induction rest with
  | nil =>
    intro done s sp _ _ _
    simp
  | cons p rest ih =>
    intro done s sp hwf hsplit hinv
    obtain ⟨⟨hp1, hp2, _⟩, _, _⟩ := scanOrder_split w.size done rest p hsplit
    have hstep := stepCell_count w store0 rest p s sp hwf hp1 hp2 hinv
    have hinv' := stepCell_inv w store0 done rest p s hwf hsplit hinv
    have hsplit' : scanOrder w.size = (done ++ [p]) ++ rest := by
      rw [hsplit, List.append_assoc]
      rfl
    have htail := ih (done ++ [p]) (stepCell w s p) sp hwf hsplit' hinv'
    rw [List.foldl_cons, List.countP_cons, List.countP_cons]
    omega

lemma processChronon_count (w : World) (store0 : Store) (sup : List Nat) (sp : Species)
    (hwf : WF w store0) :
    speciesCount (processChronon w store0 sup).store (processChronon w store0 sup).g w.size sp
      ≤ speciesCount store0 w.grid w.size sp
        + (scanOrder w.size).countP (eligibleBreeder w store0 sp) := by
  unfold processChronon
  have h : speciesCount ((scanOrder w.size).foldl (stepCell w) ⟨emptyGrid w.size, store0, sup, []⟩).store ((scanOrder w.size).foldl (stepCell w) ⟨emptyGrid w.size, store0, sup, []⟩).g w.size sp
      ≤ speciesCount store0 (emptyGrid w.size) w.size sp
        + (scanOrder w.size).countP (speciesAt store0 w.grid sp)
        + (scanOrder w.size).countP (eligibleBreeder w store0 sp) :=
    fold_count w store0 (scanOrder w.size) [] ⟨emptyGrid w.size, store0, sup, []⟩ sp hwf rfl
      (inv_init w store0 sup hwf)
  have hz : speciesCount store0 (emptyGrid w.size) w.size sp = 0 :=
    speciesCount_emptyGrid _ _ _
  have hcnt : (scanOrder w.size).countP (speciesAt store0 w.grid sp)
      = speciesCount store0 w.grid w.size sp := rfl
  rw [hz, hcnt] at h
  omega

lemma WF_of_WFb (w : World) (store0 : Store) (h : WFb w store0 = true) : WF w store0 := by
  unfold WFb at h
  rw [Bool.and_eq_true, Bool.and_eq_true, Bool.and_eq_true] at h
  obtain ⟨⟨⟨h1, h2⟩, h3⟩, h4⟩ := h
  refine ⟨⟨of_decide_eq_true h1, ?_⟩, ?_, ?_⟩
  · intro col hcol
    exact of_decide_eq_true (List.all_eq_true.mp h2 col hcol)
  · intro x hx y hy
    have hy' := List.all_eq_true.mp (List.all_eq_true.mp h3 x (List.mem_range.mpr hx))
      y (List.mem_range.mpr hy)
    cases hgg : gget w.grid (x, y) with
    | none => trivial
    | some id =>
      rw [hgg] at hy'
      exact of_decide_eq_true hy'
  · intro x hx y hy a ha b hb hne heq
    have a4 := List.all_eq_true.mp (List.all_eq_true.mp (List.all_eq_true.mp
      (List.all_eq_true.mp h4 x (List.mem_range.mpr hx)) y (List.mem_range.mpr hy))
      a (List.mem_range.mpr ha)) b (List.mem_range.mpr hb)
    rw [Bool.or_eq_true, Bool.or_eq_true] at a4
    rcases a4 with (hc | hc) | hc
    · exact absurd (of_decide_eq_true hc) hne
    · rw [Bool.not_eq_true'] at hc
      exact absurd heq (of_decide_eq_false hc)
    · exact of_decide_eq_true hc

/-! ### The claims -/

/-- C1 (counterexample): the old grid of `soloWorld` references creature 0,
and after one chronon the record of creature 0 is no longer what it was
before the call — `processChronon` mutates, in place, the records of the
creatures the old grid points to. -/
theorem C1_counterexample :
    gget soloWorld.grid (0, 0) = some 0 ∧
    storeGet (processChronon soloWorld soloStore []).store 0 ≠ storeGet soloStore 0 := by
  decide

/-- C1 (amended): `processChronon` never writes the old grid's cells (the
old grid is read-only input in this embedding), but it does mutate shared
creature records.  What survives of the claim: the creature store only
grows, every creature's species is preserved, and the record of every
creature the old grid does not reference is exactly what it was before
the call. -/
theorem C1_frame (w : World) (store0 : Store) (sup : List Nat) (hwf : WF w store0) :
    store0.length ≤ (processChronon w store0 sup).store.length ∧
    (∀ id, id < store0.length →
      (storeGet (processChronon w store0 sup).store id).species
        = (storeGet store0 id).species) ∧
    (∀ id, id < store0.length → (∀ q, gget w.grid q ≠ some id) →
      storeGet (processChronon w store0 sup).store id = storeGet store0 id) := by
  have h := processChronon_inv w store0 sup hwf
  exact ⟨h.storeLen, h.speciesPres, h.untouched⟩

/-- Witness for `C1_frame` at the concrete world `soloWorld` (creature 1
of `soloStore` is unreferenced, so its record survives unchanged). -/
theorem C1_frame_witness :
    soloStore.length ≤ (processChronon soloWorld soloStore []).store.length ∧
    (∀ id, id < soloStore.length →
      (storeGet (processChronon soloWorld soloStore []).store id).species
        = (storeGet soloStore id).species) ∧
    (∀ id, id < soloStore.length → (∀ q, gget soloWorld.grid q ≠ some id) →
      storeGet (processChronon soloWorld soloStore []).store id = storeGet soloStore id) :=
  C1_frame soloWorld soloStore [] (WF_of_WFb _ _ (by decide))

/-- C2 (confirmed): for a well-formed world, no placement of a chronon ever
targets an occupied cell of the new grid (the would-be-overwrite log is
provably empty), and in the resulting grid no creature occupies two
distinct cells. -/
theorem C2_no_overwrite (w : World) (store0 : Store) (sup : List Nat)
    (hwf : WF w store0) :
    (∀ q, Event.violation q ∉ (processChronon w store0 sup).log) ∧
    (∀ q r id, gget (processChronon w store0 sup).g q = some id →
      gget (processChronon w store0 sup).g r = some id → q = r) := by
  have h := processChronon_inv w store0 sup hwf
  exact ⟨h.noViol, h.ginj⟩

/-- Witness for `C2_no_overwrite` at the concrete world `duelWorld`. -/
theorem C2_no_overwrite_witness :
    (∀ q, Event.violation q ∉ (processChronon duelWorld duelStore []).log) ∧
    (∀ q r id, gget (processChronon duelWorld duelStore []).g q = some id →
      gget (processChronon duelWorld duelStore []).g r = some id → q = r) :=
  C2_no_overwrite duelWorld duelStore [] (WF_of_WFb _ _ (by decide))

/-- C3 (counterexample): in `earlyWorld` the single fish's breed timer (0)
is strictly below the threshold (1), so the claim's bound — old count
plus the count of creatures with `breedTimer ≥ threshold` and a valid
destination — is 1 + 0; yet the chronon produces 2 fish, because the
engine increments the timer before comparing it to the threshold. -/
theorem C3_counterexample :
    speciesCount earlyStore earlyWorld.grid earlyWorld.size Species.fish = 1 ∧
    (scanOrder earlyWorld.size).countP (fun p =>
      speciesAt earlyStore earlyWorld.grid Species.fish p &&
      decide (earlyWorld.fishBreed ≤
        (storeGet earlyStore ((gget earlyWorld.grid p).getD 0)).LastBreed) &&
      hasEmptyNeighbor earlyWorld p) = 0 ∧
    speciesCount (processChronon earlyWorld earlyStore []).store
      (processChronon earlyWorld earlyStore []).g earlyWorld.size Species.fish = 2 := by
  decide

/-- C3 (amended): the per-species population bound holds once eligibility
is read with the post-increment timer the code actually compares: the new
count of species `sp` never exceeds the old count plus the number of
cells holding an `sp`-creature with `breedTimer + 1 ≥ threshold` and a
possible destination, so each eligible breeder adds at most one. -/
theorem C3_count_bound (w : World) (store0 : Store) (sup : List Nat) (sp : Species)
    (hwf : WF w store0) :
    speciesCount (processChronon w store0 sup).store (processChronon w store0 sup).g
        w.size sp
      ≤ speciesCount store0 w.grid w.size sp
        + (scanOrder w.size).countP (eligibleBreeder w store0 sp) :=
  processChronon_count w store0 sup sp hwf

/-- Witness for `C3_count_bound` at the concrete world `earlyWorld`. -/
theorem C3_count_bound_witness :
    speciesCount (processChronon earlyWorld earlyStore []).store
        (processChronon earlyWorld earlyStore []).g earlyWorld.size Species.fish
      ≤ speciesCount earlyStore earlyWorld.grid earlyWorld.size Species.fish
        + (scanOrder earlyWorld.size).countP
            (eligibleBreeder earlyWorld earlyStore Species.fish) :=
  C3_count_bound earlyWorld earlyStore [] Species.fish (WF_of_WFb _ _ (by decide))

/-- C8 (counterexample): in `duelWorld` the shark (id 0, present in the
old grid at (0,0)) eats the not-yet-scanned fish cell (1,0); when the
scan reaches (1,0) it is skipped because the shark already occupies it.
The chronon's log shows the skip's occupant is the moved shark and that
no reproduction happened at all, so the skip is not caused by a child of
a reproduction. -/
theorem C8_counterexample :
    (processChronon duelWorld duelStore []).log
      = [Event.skipCell (1, 0) 0, Event.eat 0 1 (0, 0) (1, 0)] ∧
    gget duelWorld.grid (0, 0) = some 0 ∧
    (storeGet duelStore 0).species = Species.shark := by
  decide

/-- C8 (amended): a skip is triggered only by predation, never by a
reproduction's child: whenever a scanned cell is skipped because the new
grid already holds an occupant, the skipped cell held a fish in the old
grid and the occupant is a shark that ate that very fish earlier in the
scan. -/
theorem C8_skip_only_predation (w : World) (store0 : Store) (sup : List Nat)
    (hwf : WF w store0) :
    ∀ q occ, Event.skipCell q occ ∈ (processChronon w store0 sup).log →
      ∃ fid spos, gget w.grid q = some fid ∧
        (storeGet store0 fid).species = Species.fish ∧
        (storeGet store0 occ).species = Species.shark ∧
        Event.eat occ fid spos q ∈ (processChronon w store0 sup).log := by
  intro q occ hmem
  have h := processChronon_inv w store0 sup hwf
  obtain ⟨fid, spos, h1, h2, h3⟩ := h.skipFacts q occ hmem
  exact ⟨fid, spos, h1, h2, (h.eatFacts occ fid spos q h3).2.1, h3⟩

/-- Witness for `C8_skip_only_predation`: the skip at (1,0) of the
`duelWorld` chronon is explained by a predation event. -/
theorem C8_skip_only_predation_witness :
    ∃ fid spos, gget duelWorld.grid (1, 0) = some fid ∧
      (storeGet duelStore fid).species = Species.fish ∧
      (storeGet duelStore 0).species = Species.shark ∧
      Event.eat 0 fid spos (1, 0) ∈ (processChronon duelWorld duelStore []).log :=
  C8_skip_only_predation duelWorld duelStore [] (WF_of_WFb _ _ (by decide))
    (1, 0) 0 (by decide)

/-- C9 (confirmed): if the starvation ceiling is at least 1, every shark
present in the grid a chronon produces has strictly positive energy,
whatever the input sharks' energies were. -/
theorem C9_shark_energy_positive (w : World) (store0 : Store) (sup : List Nat)
    (hwf : WF w store0) (hstv : 1 ≤ w.starve) :
    ∀ q id, gget (processChronon w store0 sup).g q = some id →
      (storeGet (processChronon w store0 sup).store id).species = Species.shark →
      1 ≤ (storeGet (processChronon w store0 sup).store id).Energy := by
  intro q id h1 h2
  exact (processChronon_inv w store0 sup hwf).sharkAlive hstv q id h1 h2

/-- Witness for `C9_shark_energy_positive`: the shark occupying (1,0)
after the `duelWorld` chronon has positive energy. -/
theorem C9_shark_energy_positive_witness :
    1 ≤ (storeGet (processChronon duelWorld duelStore []).store 0).Energy :=
  C9_shark_energy_positive duelWorld duelStore [] (WF_of_WFb _ _ (by decide)) (by decide)
    (1, 0) 0 (by decide) (by decide)

/-- C4 (confirmed): a shark of the old grid whose energy is ≤ 1 at the
start of a chronon (so ≤ 0 after the decrement) appears nowhere in the
new grid, and its record shows exactly the in-place updates of a doomed
shark (`Age+1`, `LastBreed+1`, `Energy-1`); in particular a 1×1 grid
holding a single shark with energy 1 is entirely empty after one chronon,
for every choice of the threshold parameters. -/
theorem C4_starvation (w : World) (store0 : Store) (sup : List Nat)
    (hwf : WF w store0) :
    (∀ q id, gget w.grid q = some id →
      (storeGet store0 id).species = Species.shark →
      (storeGet store0 id).Energy ≤ 1 →
      (∀ r, gget (processChronon w store0 sup).g r ≠ some id) ∧
      storeGet (processChronon w store0 sup).store id
        = deadUpdate (storeGet store0 id)) ∧
    (∀ fb sb stv : Int, ∀ sup' : List Nat, ∀ q : Nat × Nat,
      gget (processChronon ⟨[[some 0]], 1, fb, sb, stv⟩
        [⟨Species.shark, 0, 1, 0⟩] sup').g q = none) := by
  constructor
  · intro q id hq hsp hen
    have h := processChronon_inv w store0 sup hwf
    obtain ⟨h1, h2⟩ := h.weakShark q id hq hsp hen
    exact ⟨h1, h2 (by simp)⟩
  · intro fb sb stv sup' q
    have hrun : processChronon ⟨[[some 0]], 1, fb, sb, stv⟩ [⟨Species.shark, 0, 1, 0⟩] sup'
        = ⟨emptyGrid 1, [⟨Species.shark, 1, 0, 1⟩], sup', []⟩ := by
      show stepCell ⟨[[some 0]], 1, fb, sb, stv⟩
        ⟨emptyGrid 1, [⟨Species.shark, 0, 1, 0⟩], sup', []⟩ (0, 0) = _
      have hocc : gget (emptyGrid 1) ((0 : Nat), (0 : Nat)) = none := by decide
      rw [stepCell_proc_shark (w := ⟨[[some 0]], 1, fb, sb, stv⟩)
          (s := ⟨emptyGrid 1, [⟨Species.shark, 0, 1, 0⟩], sup', []⟩)
          (p := ((0, 0) : Nat × Nat)) rfl hocc rfl]
      show processShark ⟨[[some 0]], 1, fb, sb, stv⟩
        ⟨emptyGrid 1, [⟨Species.shark, 1, 1, 1⟩], sup', []⟩ 0 0 0 = _
      have hdead : (decEnergy (storeGet ([⟨Species.shark, 1, 1, 1⟩] : Store) 0)).Energy ≤ 0 := by
        decide
      rw [processShark_dead (w := ⟨[[some 0]], 1, fb, sb, stv⟩)
          (s := ⟨emptyGrid 1, [⟨Species.shark, 1, 1, 1⟩], sup', []⟩) hdead]
      rfl
    rw [hrun]
    show gget (emptyGrid 1) q = none
    exact gget_emptyGrid 1 q

/-- Witness for `C4_starvation` at a concrete 1×1 shark world. -/
theorem C4_starvation_witness :
    (∀ q id, gget (⟨[[some 0]], 1, 3, 10, 5⟩ : World).grid q = some id →
      (storeGet [(⟨Species.shark, 0, 1, 0⟩ : Creature)] id).species = Species.shark →
      (storeGet [(⟨Species.shark, 0, 1, 0⟩ : Creature)] id).Energy ≤ 1 →
      (∀ r, gget (processChronon ⟨[[some 0]], 1, 3, 10, 5⟩
        [⟨Species.shark, 0, 1, 0⟩] []).g r ≠ some id) ∧
      storeGet (processChronon ⟨[[some 0]], 1, 3, 10, 5⟩
          [⟨Species.shark, 0, 1, 0⟩] []).store id
        = deadUpdate (storeGet [(⟨Species.shark, 0, 1, 0⟩ : Creature)] id)) ∧
    (∀ fb sb stv : Int, ∀ sup' : List Nat, ∀ q : Nat × Nat,
      gget (processChronon ⟨[[some 0]], 1, fb, sb, stv⟩
        [⟨Species.shark, 0, 1, 0⟩] sup').g q = none) :=
  C4_starvation ⟨[[some 0]], 1, 3, 10, 5⟩ [⟨Species.shark, 0, 1, 0⟩] []
    (WF_of_WFb _ _ (by decide))

/-- C5 (counterexample): in `ghostWorld` the fish (id 0) is scanned before
the shark and moves away; the shark still records an eat of that fish
(it tested the fish's stale old-grid cell), yet the "eaten" fish is
alive in the new grid at (2,0): an eat does not imply the eaten fish
appears nowhere in the new grid. -/
theorem C5_counterexample :
    Event.eat 1 0 (0, 1) (0, 0) ∈ (processChronon ghostWorld ghostStore [0]).log ∧
    gget (processChronon ghostWorld ghostStore [0]).g (2, 0) = some 0 ∧
    (storeGet ghostStore 0).species = Species.fish := by
  decide

/-- C5 (amended): whenever a shark eats during a chronon its stored energy
is exactly the starvation ceiling (a reset, not a gain); the eaten fish is
guaranteed absent from the new grid only when the shark's cell precedes
the fish's cell in scan order.  The claimed 2×2 scenario itself is
correct: the shark ends at (1,0) with energy 5 and the fish is gone, for
every randomness supply. -/
theorem C5_eat_resets_energy (w : World) (store0 : Store) (sup : List Nat)
    (hwf : WF w store0) :
    (∀ sh f spos fpos, Event.eat sh f spos fpos ∈ (processChronon w store0 sup).log →
      (storeGet (processChronon w store0 sup).store sh).Energy = w.starve ∧
      (scanKey w.size spos < scanKey w.size fpos →
        ∀ r, gget (processChronon w store0 sup).g r ≠ some f)) ∧
    (∀ sup' : List Nat,
      gget (processChronon duelWorld duelStore sup').g (1, 0) = some 0 ∧
      (storeGet (processChronon duelWorld duelStore sup').store 0).Energy = 5 ∧
      ∀ q, gget (processChronon duelWorld duelStore sup').g q ≠ some 1) := by
  constructor
  · intro sh f spos fpos hmem
    have h := (processChronon_inv w store0 sup hwf).eatFacts sh f spos fpos hmem
    exact ⟨h.2.2.2.2.1, h.2.2.2.2.2.2.2.2⟩
  · intro sup'
    have hrun : processChronon duelWorld duelStore sup'
        = ⟨gset (emptyGrid 2) (1, 0) 0,
           [⟨Species.shark, 1, 5, 1⟩, ⟨Species.fish, 0, 0, 0⟩],
           (draw sup' 2).2,
           [Event.skipCell (1, 0) 0, Event.eat 0 1 (0, 0) (1, 0)]⟩ := by
      show (scanOrder 2).foldl (stepCell duelWorld) ⟨emptyGrid 2, duelStore, sup', []⟩ = _
      rw [show scanOrder 2 = [(0, 0), (0, 1), (1, 0), (1, 1)] from by decide]
      simp only [List.foldl_cons, List.foldl_nil]
      rw [stepCell_none (w := duelWorld) (p := ((0, 1) : Nat × Nat)) rfl]
      rw [stepCell_none (w := duelWorld) (p := ((1, 1) : Nat × Nat)) rfl]
      have hocc : gget (emptyGrid 2) ((0 : Nat), (0 : Nat)) = none := by decide
      rw [stepCell_proc_shark (w := duelWorld) (s := ⟨emptyGrid 2, duelStore, sup', []⟩)
          (p := ((0, 0) : Nat × Nat)) rfl hocc rfl]
      show stepCell duelWorld (processShark duelWorld
        ⟨emptyGrid 2, [⟨Species.shark, 1, 5, 1⟩, ⟨Species.fish, 0, 0, 0⟩], sup', []⟩ 0 0 0)
        (1, 0) = _
      have he : ¬ (decEnergy (storeGet
          ([⟨Species.shark, 1, 5, 1⟩, ⟨Species.fish, 0, 0, 0⟩] : Store) 0)).Energy ≤ 0 := by
        decide
      have hf : fishCellsOf duelWorld
          (([⟨Species.shark, 1, 5, 1⟩, ⟨Species.fish, 0, 0, 0⟩] : Store).set 0
            (decEnergy (storeGet
              ([⟨Species.shark, 1, 5, 1⟩, ⟨Species.fish, 0, 0, 0⟩] : Store) 0)))
          (emptyGrid 2) 0 0 ≠ [] := by decide
      have hb : ¬ (setEnergy (decEnergy (storeGet
            ([⟨Species.shark, 1, 5, 1⟩, ⟨Species.fish, 0, 0, 0⟩] : Store) 0))
          duelWorld.starve).LastBreed ≥ duelWorld.sharkBreed := by decide
      rw [processShark_eat_nobreed (w := duelWorld)
          (s := ⟨emptyGrid 2, [⟨Species.shark, 1, 5, 1⟩, ⟨Species.fish, 0, 0, 0⟩], sup', []⟩)
          he hf hb]
      show stepCell duelWorld
          { g := gset (emptyGrid 2)
              (([((1 : Nat), (0 : Nat)), (1, 0)] : List (Nat × Nat)).getD
                (draw sup' 2).1 (0, 0)) 0,
            store := [⟨Species.shark, 1, 5, 1⟩, ⟨Species.fish, 0, 0, 0⟩],
            sup := (draw sup' 2).2,
            log := violLog (emptyGrid 2)
              (([((1 : Nat), (0 : Nat)), (1, 0)] : List (Nat × Nat)).getD
                (draw sup' 2).1 (0, 0))
              [Event.eat 0
                ((gget duelWorld.grid
                  (([((1 : Nat), (0 : Nat)), (1, 0)] : List (Nat × Nat)).getD
                    (draw sup' 2).1 (0, 0))).getD 0)
                (0, 0)
                (([((1 : Nat), (0 : Nat)), (1, 0)] : List (Nat × Nat)).getD
                  (draw sup' 2).1 (0, 0))] }
          (1, 0) = _
      have hnp : ([((1 : Nat), (0 : Nat)), (1, 0)] : List (Nat × Nat)).getD
          (draw sup' 2).1 (0, 0) = (1, 0) :=
        (by decide : ∀ i, i < 2 →
          ([((1 : Nat), (0 : Nat)), (1, 0)] : List (Nat × Nat)).getD i (0, 0) = (1, 0))
          _ (draw_fst_lt sup' 2 (by decide))
      rw [hnp]
      show stepCell duelWorld
          { g := gset (emptyGrid 2) (1, 0) 0,
            store := [⟨Species.shark, 1, 5, 1⟩, ⟨Species.fish, 0, 0, 0⟩],
            sup := (draw sup' 2).2,
            log := [Event.eat 0 1 (0, 0) (1, 0)] } (1, 0) = _
      have hsk : gget (gset (emptyGrid 2) ((1 : Nat), (0 : Nat)) 0)
          ((1 : Nat), (0 : Nat)) = some 0 := by decide
      rw [stepCell_skip (w := duelWorld)
          (s := { g := gset (emptyGrid 2) (1, 0) 0,
                  store := [⟨Species.shark, 1, 5, 1⟩, ⟨Species.fish, 0, 0, 0⟩],
                  sup := (draw sup' 2).2,
                  log := [Event.eat 0 1 (0, 0) (1, 0)] })
          (p := ((1, 0) : Nat × Nat)) rfl hsk]
    rw [hrun]
    refine ⟨?_, ?_, ?_⟩
    · show gget (gset (emptyGrid 2) (1, 0) 0) (1, 0) = some 0
      decide
    · show (storeGet ([⟨Species.shark, 1, 5, 1⟩, ⟨Species.fish, 0, 0, 0⟩] : Store) 0).Energy = 5
      decide
    intro q hq
    have hq' : gget (gset (emptyGrid 2) (1, 0) 0) q = some 1 := hq
    rcases eq_or_ne q ((1 : Nat), (0 : Nat)) with h | h
    · subst h
      rw [gget_gset_self (emptyGrid 2) 2 (1, 0) 0 (gdims_emptyGrid 2)
        (by decide) (by decide)] at hq'
      cases hq'
    · rw [gget_gset_ne (emptyGrid 2) (1, 0) q 0 h, gget_emptyGrid 2 q] at hq'
      cases hq'

/-- Witness for `C5_eat_resets_energy` at the concrete world `ghostWorld`
(whose log does contain an eat event). -/
theorem C5_eat_resets_energy_witness :
    (∀ sh f spos fpos,
      Event.eat sh f spos fpos ∈ (processChronon ghostWorld ghostStore [0]).log →
      (storeGet (processChronon ghostWorld ghostStore [0]).store sh).Energy
        = ghostWorld.starve ∧
      (scanKey ghostWorld.size spos < scanKey ghostWorld.size fpos →
        ∀ r, gget (processChronon ghostWorld ghostStore [0]).g r ≠ some f)) ∧
    (∀ sup' : List Nat,
      gget (processChronon duelWorld duelStore sup').g (1, 0) = some 0 ∧
      (storeGet (processChronon duelWorld duelStore sup').store 0).Energy = 5 ∧
      ∀ q, gget (processChronon duelWorld duelStore sup').g q ≠ some 1) :=
  C5_eat_resets_energy ghostWorld ghostStore [0] (WF_of_WFb _ _ (by decide))

/-- C6 (confirmed): after any chronon, every recorded reproduction left
both the parent and the child with breed timer 0, the child sitting at
the parent's old cell and the parent at the destination; in particular
in the 3×3 single-fish world with threshold 0 the chronon produces
exactly two fish — the newborn `⟨fish, 0, 0, 0⟩` (age 0, timer 0) at
(1,1) and the parent with timer 0 at a neighbor of (1,1) — for every
randomness supply. -/
theorem C6_breed_timers (w : World) (store0 : Store) (sup : List Nat)
    (hwf : WF w store0) :
    (∀ pid chid origin dest,
      Event.breed pid chid origin dest ∈ (processChronon w store0 sup).log →
      (storeGet (processChronon w store0 sup).store pid).LastBreed = 0 ∧
      (storeGet (processChronon w store0 sup).store chid).LastBreed = 0 ∧
      gget (processChronon w store0 sup).g origin = some chid ∧
      gget (processChronon w store0 sup).g dest = some pid) ∧
    (∀ sup' : List Nat, ∃ d ∈ adjacentN 1 1 3,
      gget (processChronon lonelyWorld lonelyStore sup').g (1, 1) = some 1 ∧
      storeGet (processChronon lonelyWorld lonelyStore sup').store 1
        = ⟨Species.fish, 0, 0, 0⟩ ∧
      gget (processChronon lonelyWorld lonelyStore sup').g d = some 0 ∧
      (storeGet (processChronon lonelyWorld lonelyStore sup').store 0).LastBreed = 0 ∧
      speciesCount (processChronon lonelyWorld lonelyStore sup').store
        (processChronon lonelyWorld lonelyStore sup').g 3 Species.fish = 2) := by
  constructor
  · intro pid chid origin dest hmem
    have h := (processChronon_inv w store0 sup hwf).breedFacts pid chid origin dest hmem
    exact ⟨h.1, h.2.1, h.2.2.1, h.2.2.2.1⟩
  · intro sup'
    have hrun : processChronon lonelyWorld lonelyStore sup'
        = ⟨gset (gset (emptyGrid 3) (1, 1) 1)
            (([((0 : Nat), (1 : Nat)), (2, 1), (1, 0), (1, 2)] : List (Nat × Nat)).getD
              (draw sup' 4).1 (1, 1)) 0,
           [⟨Species.fish, 1, 0, 0⟩, ⟨Species.fish, 0, 0, 0⟩],
           (draw sup' 4).2,
           [Event.breed 0 1 (1, 1)
             (([((0 : Nat), (1 : Nat)), (2, 1), (1, 0), (1, 2)] : List (Nat × Nat)).getD
               (draw sup' 4).1 (1, 1))]⟩ := by
      show (scanOrder 3).foldl (stepCell lonelyWorld) ⟨emptyGrid 3, lonelyStore, sup', []⟩ = _
      rw [show scanOrder 3 = [(0, 0), (0, 1), (0, 2), (1, 0), (1, 1), (1, 2),
        (2, 0), (2, 1), (2, 2)] from by decide]
      simp only [List.foldl_cons, List.foldl_nil]
      rw [stepCell_none (w := lonelyWorld) (p := ((0, 0) : Nat × Nat)) rfl]
      rw [stepCell_none (w := lonelyWorld) (p := ((0, 1) : Nat × Nat)) rfl]
      rw [stepCell_none (w := lonelyWorld) (p := ((0, 2) : Nat × Nat)) rfl]
      rw [stepCell_none (w := lonelyWorld) (p := ((1, 0) : Nat × Nat)) rfl]
      rw [stepCell_none (w := lonelyWorld) (p := ((1, 2) : Nat × Nat)) rfl]
      rw [stepCell_none (w := lonelyWorld) (p := ((2, 0) : Nat × Nat)) rfl]
      rw [stepCell_none (w := lonelyWorld) (p := ((2, 1) : Nat × Nat)) rfl]
      rw [stepCell_none (w := lonelyWorld) (p := ((2, 2) : Nat × Nat)) rfl]
      have hocc : gget (emptyGrid 3) ((1 : Nat), (1 : Nat)) = none := by decide
      rw [stepCell_proc_fish (w := lonelyWorld) (s := ⟨emptyGrid 3, lonelyStore, sup', []⟩)
          (p := ((1, 1) : Nat × Nat)) rfl hocc rfl]
      show processFish lonelyWorld
        ⟨emptyGrid 3, [⟨Species.fish, 1, 0, 1⟩], sup', []⟩ 1 1 0 = _
      have hec : emptyCellsOf lonelyWorld (emptyGrid 3) 1 1 ≠ [] := by decide
      have hlb : (storeGet ([⟨Species.fish, 1, 0, 1⟩] : Store) 0).LastBreed
          ≥ lonelyWorld.fishBreed := by decide
      rw [processFish_breed (w := lonelyWorld)
          (s := ⟨emptyGrid 3, [⟨Species.fish, 1, 0, 1⟩], sup', []⟩) hec hlb]
      show (⟨gset (gset (emptyGrid 3) (1, 1) 1)
          (([((0 : Nat), (1 : Nat)), (2, 1), (1, 0), (1, 2)] : List (Nat × Nat)).getD
            (draw sup' 4).1 (1, 1)) 0,
        [⟨Species.fish, 1, 0, 0⟩, ⟨Species.fish, 0, 0, 0⟩],
        (draw sup' 4).2,
        Event.breed 0 1 (1, 1)
            (([((0 : Nat), (1 : Nat)), (2, 1), (1, 0), (1, 2)] : List (Nat × Nat)).getD
              (draw sup' 4).1 (1, 1))
          :: violLog (gset (emptyGrid 3) (1, 1) 1)
            (([((0 : Nat), (1 : Nat)), (2, 1), (1, 0), (1, 2)] : List (Nat × Nat)).getD
              (draw sup' 4).1 (1, 1)) []⟩ : SimState) = _
      have hnpmem : (([((0 : Nat), (1 : Nat)), (2, 1), (1, 0), (1, 2)] : List (Nat × Nat)).getD
          (draw sup' 4).1 (1, 1)) ∈
          ([((0 : Nat), (1 : Nat)), (2, 1), (1, 0), (1, 2)] : List (Nat × Nat)) :=
        getD_mem _ _ _ (by simpa using draw_fst_lt sup' 4 (by decide))
      have hq := (by decide : ∀ q ∈ ([((0 : Nat), (1 : Nat)), (2, 1), (1, 0), (1, 2)] :
          List (Nat × Nat)), q ≠ ((1 : Nat), (1 : Nat)) ∧ gget (emptyGrid 3) q = none)
        _ hnpmem
      have hgnone : gget (gset (emptyGrid 3) ((1 : Nat), (1 : Nat)) 1)
          (([((0 : Nat), (1 : Nat)), (2, 1), (1, 0), (1, 2)] : List (Nat × Nat)).getD
            (draw sup' 4).1 (1, 1)) = none := by
        rw [gget_gset_ne _ _ _ _ hq.1]
        exact hq.2
      rw [violLog_vacant hgnone]
    rw [hrun]
    have hnpmem : (([((0 : Nat), (1 : Nat)), (2, 1), (1, 0), (1, 2)] : List (Nat × Nat)).getD
        (draw sup' 4).1 (1, 1)) ∈
        ([((0 : Nat), (1 : Nat)), (2, 1), (1, 0), (1, 2)] : List (Nat × Nat)) :=
      getD_mem _ _ _ (by simpa using draw_fst_lt sup' 4 (by decide))
    have hq := (by decide : ∀ q ∈ ([((0 : Nat), (1 : Nat)), (2, 1), (1, 0), (1, 2)] :
        List (Nat × Nat)), q ∈ adjacentN 1 1 3 ∧ q ≠ ((1 : Nat), (1 : Nat)) ∧
        q.1 < 3 ∧ q.2 < 3 ∧ gget (emptyGrid 3) q = none)
      _ hnpmem
    set np := (([((0 : Nat), (1 : Nat)), (2, 1), (1, 0), (1, 2)] : List (Nat × Nat)).getD
      (draw sup' 4).1 (1, 1)) with hnpdef
    obtain ⟨hadj, hne, hr1, hr2, hvac⟩ := hq
    have hdims1 : GDims (gset (emptyGrid 3) (1, 1) 1) 3 :=
      gdims_gset (emptyGrid 3) 3 (1, 1) 1 (gdims_emptyGrid 3)
    have hvac1 : gget (gset (emptyGrid 3) ((1 : Nat), (1 : Nat)) 1) np = none := by
      rw [gget_gset_ne _ _ _ _ hne]
      exact hvac
    refine ⟨np, hadj, ?_, ?_, ?_, ?_, ?_⟩
    · show gget (gset (gset (emptyGrid 3) (1, 1) 1) np 0) (1, 1) = some 1
      rw [gget_gset_ne _ _ _ _ (Ne.symm hne)]
      exact gget_gset_self (emptyGrid 3) 3 (1, 1) 1 (gdims_emptyGrid 3)
        (by decide) (by decide)
    · show storeGet ([⟨Species.fish, 1, 0, 0⟩, ⟨Species.fish, 0, 0, 0⟩] : Store) 1
        = ⟨Species.fish, 0, 0, 0⟩
      decide
    · show gget (gset (gset (emptyGrid 3) (1, 1) 1) np 0) np = some 0
      exact gget_gset_self _ 3 np 0 hdims1 hr1 hr2
    · show (storeGet ([⟨Species.fish, 1, 0, 0⟩, ⟨Species.fish, 0, 0, 0⟩] : Store) 0).LastBreed = 0
      decide
    · show speciesCount ([⟨Species.fish, 1, 0, 0⟩, ⟨Species.fish, 0, 0, 0⟩] : Store)
        (gset (gset (emptyGrid 3) (1, 1) 1) np 0) 3 Species.fish = 2
      rw [speciesCount_gset _ _ 3 Species.fish np 0 hr1 hr2 hdims1 hvac1]
      rw [speciesCount_gset _ _ 3 Species.fish (1, 1) 1 (by decide) (by decide)
        (gdims_emptyGrid 3) (by decide)]
      rw [speciesCount_emptyGrid]
      decide

/-- Witness for `C6_breed_timers` at the concrete world `lonelyWorld`
(whose log does contain a breed event). -/
theorem C6_breed_timers_witness :
    (∀ pid chid origin dest,
      Event.breed pid chid origin dest ∈ (processChronon lonelyWorld lonelyStore [2]).log →
      (storeGet (processChronon lonelyWorld lonelyStore [2]).store pid).LastBreed = 0 ∧
      (storeGet (processChronon lonelyWorld lonelyStore [2]).store chid).LastBreed = 0 ∧
      gget (processChronon lonelyWorld lonelyStore [2]).g origin = some chid ∧
      gget (processChronon lonelyWorld lonelyStore [2]).g dest = some pid) ∧
    (∀ sup' : List Nat, ∃ d ∈ adjacentN 1 1 3,
      gget (processChronon lonelyWorld lonelyStore sup').g (1, 1) = some 1 ∧
      storeGet (processChronon lonelyWorld lonelyStore sup').store 1
        = ⟨Species.fish, 0, 0, 0⟩ ∧
      gget (processChronon lonelyWorld lonelyStore sup').g d = some 0 ∧
      (storeGet (processChronon lonelyWorld lonelyStore sup').store 0).LastBreed = 0 ∧
      speciesCount (processChronon lonelyWorld lonelyStore sup').store
        (processChronon lonelyWorld lonelyStore sup').g 3 Species.fish = 2) :=
  C6_breed_timers lonelyWorld lonelyStore [2] (WF_of_WFb _ _ (by decide))

end WaTor

